import Mathlib

/-!
# FFmpeg file output of obs-studio: audio/video synchronisation pipeline

Shallow embedding of `plugins/obs-ffmpeg/obs-ffmpeg-output.c`.

Conventions of the embedding

* Unsigned machine integers (`uint32_t`, `uint64_t`, `size_t`) are natural numbers; every
  operation that can wrap is written with an explicit `% u32` or `% u64`.
* Signed `int` values are integers; an `int` operation whose mathematical result leaves the
  32-bit range has no defined result in C and is reported as `fault.signed_overflow`.
* A pointer that the C code tests against `NULL`, or that is `NULL` on some path, is an
  `Option` (or a `Bool` when the pointee carries no data); dereferencing an absent one is
  `fault.null_deref`.
* Calls into libav*, libswscale and the host are not interpreted: their results are supplied
  by an environment record, and the calls the code performs are returned as a trace so that
  statements such as "no trailer is written" can be expressed.
-/

namespace ObsFfmpeg

/-! ## Machine integers -/

/-- Number of values of a `uint32_t`. -/
abbrev u32 : Nat := 4294967296

/-- Number of values of a `uint64_t` (and of `size_t` on the 64-bit targets of the plugin). -/
abbrev u64 : Nat := 18446744073709551616

/-- Largest value of an `int`. -/
abbrev INT_MAX : Int := 2147483647

/-- Smallest value of an `int`. -/
abbrev INT_MIN : Int := -2147483648

/-- Whether a mathematical integer is representable as an `int`. -/
def in_int (x : Int) : Prop := INT_MIN ≤ x ∧ x ≤ INT_MAX

instance (x : Int) : Decidable (in_int x) :=
  inferInstanceAs (Decidable (INT_MIN ≤ x ∧ x ≤ INT_MAX))

/-- Conversion `(size_t)x` of an `int`: reduction modulo `2^64`. -/
def to_size_t (x : Int) : Nat := (x % (u64 : Int)).toNat

/-- Conversion `(int)x` of a `uint32_t`: values from `2^31` on become negative. -/
def to_int (x : Nat) : Int := if x % u32 < 2147483648 then ((x % u32 : Nat) : Int) else ((x % u32 : Nat) : Int) - (u32 : Int)

/-- Ways in which an execution of the C code yields no result. -/
inductive fault where
  | null_deref
  | div_by_zero
  | signed_overflow
  | out_of_bounds
  | diverges
deriving DecidableEq, Repr

/-! ## Calls that leave the translation unit -/

/-- Which of the two streams a call concerns. -/
inductive stream_kind where
  | video
  | audio
deriving DecidableEq, Repr

/-- External calls performed by the code, in the order of the trace returned by each
operation. Arguments are recorded where a property refers to them. -/
inductive call where
  | pthread_mutex_init
  | pthread_mutex_destroy
  | avformat_alloc_output_context2
  | avcodec_find_encoder (k : stream_kind)
  | avformat_new_stream (k : stream_kind)
  | avcodec_open2 (k : stream_kind)
  | av_frame_alloc (k : stream_kind)
  | avpicture_alloc
  | sws_getContext
  | av_samples_alloc
  | avio_open
  | avformat_write_header
  | av_write_trailer
  | avcodec_close (k : stream_kind)
  | avpicture_free
  | av_frame_free (k : stream_kind)
  | circlebuf_free_all
  | av_freep_samples
  | avio_close
  | avformat_free_context
  | video_output_connect
  | audio_output_connect
  | video_output_disconnect
  | audio_output_disconnect
  | sws_scale
  | avcodec_encode_video2 (pts : Int)
  | avcodec_fill_audio_frame (total_samples : Int) (planes : List (List Nat))
  | avcodec_encode_audio2
  | av_interleaved_write_frame (k : stream_kind)
deriving DecidableEq, Repr

/-! ## Excess-sample ring buffer -/

/-- Modelled from the spec: `struct circlebuf` of `util/circlebuf.h`, whose source is not
part of the sources at hand. Section 4.1 describes it as a growable FIFO byte buffer; it is
represented by the bytes it currently holds, oldest first. -/
structure circlebuf where
  bytes : List Nat
deriving DecidableEq, Repr

/-- Modelled from the spec: `size()` reports the available bytes. -/
def circlebuf.size (cb : circlebuf) : Nat := cb.bytes.length

/-- Modelled from the spec: `push` appends raw sample bytes to the tail. -/
def circlebuf_push_back (cb : circlebuf) (data : List Nat) : circlebuf :=
  { bytes := cb.bytes ++ data }

/-- Modelled from the spec: `pop` removes `size` bytes from the head and copies them into
the caller's buffer; the copied bytes and the remaining buffer are returned. The spec does
not say what happens when more is requested than is held; here whatever is held is
returned. -/
def circlebuf_pop_front (cb : circlebuf) (size : Nat) : List Nat × circlebuf :=
  (cb.bytes.take size, { bytes := cb.bytes.drop size })

/-- Modelled from the spec: the buffer is freed fully on teardown. -/
def circlebuf_free (_cb : circlebuf) : circlebuf := { bytes := [] }

/-! ## Data model -/

/-- A `uint8_t *` into an audio block: the bytes of the object and the current offset. -/
structure pointer where
  obj : Nat → Nat
  off : Nat

/-- Pointer arithmetic `p + n`. -/
def pointer.add (p : pointer) (n : Nat) : pointer := { obj := p.obj, off := p.off + n }

/-- The `n` bytes starting at `p`. -/
def pointer.read (p : pointer) (n : Nat) : List Nat := (List.range n).map (fun k => p.obj (p.off + k))

/-- `struct audio_data` of the host: plane pointers, frame count (`uint32_t`) and capture
timestamp (`uint64_t`, nanoseconds). -/
structure audio_data where
  data : Nat → pointer
  frames : Nat
  timestamp : Nat

/-- `struct video_data` of the host: per plane the bytes reachable from the plane pointer
(indexed by signed byte offset), the row size (`uint32_t`), and the timestamp. -/
structure video_data where
  data : Nat → Int → Nat
  linesize : Nat → Nat
  timestamp : Nat

/-- `AVPicture`: plane memory (indexed by signed byte offset from the plane pointer) and
row sizes (`int`). -/
structure AVPicture where
  data : Nat → Int → Nat
  linesize : Nat → Int

/-- The fields of `AVCodecContext` that this file reads. -/
structure AVCodecContext where
  pix_fmt : Int
  height : Int
  frame_size : Int

/-- `AVStream` with its codec context. -/
structure AVStream where
  codec : AVCodecContext

/-- `AVFormatContext` with the parts of its `oformat` that this file reads. The flag words
are represented by the results of the three mask tests the code performs. -/
structure AVFormatContext where
  video_codec : Nat
  audio_codec : Nat
  nofile : Bool
  globalheader : Bool
  rawpicture : Bool

/-- `AV_CODEC_ID_NONE`. -/
abbrev AV_CODEC_ID_NONE : Nat := 0

/-- `AV_PIX_FMT_YUV420P`. -/
abbrev AV_PIX_FMT_YUV420P : Int := 0

/-- `enum AVSampleFormat` of libavutil. -/
inductive AVSampleFormat where
  | AV_SAMPLE_FMT_NONE
  | AV_SAMPLE_FMT_U8
  | AV_SAMPLE_FMT_S16
  | AV_SAMPLE_FMT_S32
  | AV_SAMPLE_FMT_FLT
  | AV_SAMPLE_FMT_DBL
  | AV_SAMPLE_FMT_U8P
  | AV_SAMPLE_FMT_S16P
  | AV_SAMPLE_FMT_S32P
  | AV_SAMPLE_FMT_FLTP
  | AV_SAMPLE_FMT_DBLP
deriving DecidableEq, Repr

/-- `enum audio_format` of the host; `AUDIO_FORMAT_UNKNOWN` is its zero value. -/
inductive audio_format where
  | AUDIO_FORMAT_UNKNOWN
  | AUDIO_FORMAT_U8BIT
  | AUDIO_FORMAT_16BIT
  | AUDIO_FORMAT_32BIT
  | AUDIO_FORMAT_FLOAT
  | AUDIO_FORMAT_U8BIT_PLANAR
  | AUDIO_FORMAT_16BIT_PLANAR
  | AUDIO_FORMAT_32BIT_PLANAR
  | AUDIO_FORMAT_FLOAT_PLANAR
deriving DecidableEq, Repr

/-- `struct ffmpeg_data`. `swscale`, `vframe`, `aframe` record whether the pointer is
non-null; `filename_test` is `none` for a null pointer. -/
structure ffmpeg_data where
  video : Option AVStream
  audio : Option AVStream
  acodec : Bool
  vcodec : Bool
  output : Option AVFormatContext
  swscale : Bool
  dst_picture : AVPicture
  vframe : Bool
  frame_size : Int
  total_frames : Int
  start_timestamp : Nat
  audio_samplerate : Nat
  audio_format : audio_format
  audio_planes : Nat
  audio_size : Nat
  excess_frames : Nat → circlebuf
  samples : Nat → List Nat
  aframe : Bool
  total_samples : Int
  filename_test : Option String
  initialized : Bool

/-- `struct ffmpeg_output` (the host handle carries no state of interest). -/
structure ffmpeg_output where
  active : Bool
  ff_data : ffmpeg_data

/-- Result of `memset(data, 0, sizeof(struct ffmpeg_data))`. -/
def ffmpeg_data.zero : ffmpeg_data :=
  { video := none, audio := none, acodec := false, vcodec := false, output := none,
    swscale := false, dst_picture := { data := fun _ _ => 0, linesize := fun _ => 0 },
    vframe := false, frame_size := 0, total_frames := 0, start_timestamp := 0,
    audio_samplerate := 0,
    audio_format := audio_format.AUDIO_FORMAT_UNKNOWN, audio_planes := 0, audio_size := 0,
    excess_frames := fun _ => { bytes := [] }, samples := fun _ => [], aframe := false,
    total_samples := 0, filename_test := none, initialized := false }

/-! ## Timestamp aligner and audio path -/

/-- Local `duration` of `prepare_audio`. -/
def audio_duration (data : ffmpeg_data) (frame : audio_data) : Nat :=
  (frame.frames * 1000000000 % u64) / data.audio_samplerate

/-- Local `end_ts` of `prepare_audio`. -/
def audio_end_ts (data : ffmpeg_data) (frame : audio_data) : Nat :=
  (frame.timestamp + audio_duration data frame) % u64

/-- Local `cutoff` of `prepare_audio` after its second assignment. -/
def audio_cutoff (data : ffmpeg_data) (frame : audio_data) : Nat :=
  ((data.start_timestamp - frame.timestamp) * data.audio_samplerate % u64) / 1000000000

/-- `prepare_audio`: the returned pair is the `bool` result and `*output`. -/
def prepare_audio (data : ffmpeg_data) (frame : audio_data) : Except fault (Bool × audio_data) :=
  if frame.timestamp < data.start_timestamp then
    if data.audio_samplerate = 0 then Except.error fault.div_by_zero
    else if audio_end_ts data frame ≤ data.start_timestamp then Except.ok (false, frame)
    else
      let cutoff := audio_cutoff data frame
      Except.ok (true,
        { data := fun i =>
            if i < data.audio_planes then (frame.data i).add (data.audio_size * (cutoff % u32) % u64)
            else frame.data i,
          frames := (frame.frames + u32 - cutoff % u32) % u32,
          timestamp := frame.timestamp })
  else Except.ok (true, frame)

/-- Results of the external calls made by one run of `encode_audio`. -/
structure audio_ext where
  fill_ret : Int
  encode_ret : Int
  got_packet : Int
  write_ret : Int

/-- The sample buffers of the active planes, as handed to the encoder. -/
def sample_planes (data : ffmpeg_data) : List (List Nat) :=
  (List.range data.audio_planes).map data.samples

/-- `encode_audio`. -/
def encode_audio (output : ffmpeg_data) (e : audio_ext) : Except fault (ffmpeg_data × List call) :=
  if output.aframe = false then Except.error fault.null_deref
  else
    let c1 := [call.avcodec_fill_audio_frame output.total_samples (sample_planes output)]
    if e.fill_ret < 0 then Except.ok (output, c1)
    else if ¬ in_int (output.total_samples + output.frame_size) then Except.error fault.signed_overflow
    else
      let output1 := { output with total_samples := output.total_samples + output.frame_size }
      let c2 := c1 ++ [call.avcodec_encode_audio2]
      if e.encode_ret < 0 then Except.ok (output1, c2)
      else if e.got_packet = 0 then Except.ok (output1, c2)
      else
        match output.audio with
        | none => Except.error fault.null_deref
        | some _ => Except.ok (output1, c2 ++ [call.av_interleaved_write_frame stream_kind.audio])

/-- Local `frame_size_bytes` of `receive_audio`. -/
def frame_size_bytes (data : ffmpeg_data) : Nat :=
  to_size_t data.frame_size * data.audio_size % u64

/-- Overwriting the start of a buffer with freshly copied bytes. -/
def overwrite (old new : List Nat) : List Nat := new ++ old.drop new.length

/-- The first `for` loop of `receive_audio`: every active plane receives
`in.frames * audio_size` bytes read from its plane pointer. -/
def push_planes (data : ffmpeg_data) (inp : audio_data) : ffmpeg_data :=
  { data with excess_frames := fun i =>
      if i < data.audio_planes then
        circlebuf_push_back (data.excess_frames i) ((inp.data i).read (inp.frames * data.audio_size % u64))
      else data.excess_frames i }

/-- The inner `for` loop of the drain loop: every active plane pops `frame_size_bytes`
bytes into its sample buffer. -/
def pop_planes (data : ffmpeg_data) : ffmpeg_data :=
  { data with
    excess_frames := fun i =>
      if i < data.audio_planes then (circlebuf_pop_front (data.excess_frames i) (frame_size_bytes data)).2
      else data.excess_frames i,
    samples := fun i =>
      if i < data.audio_planes then
        overwrite (data.samples i) (circlebuf_pop_front (data.excess_frames i) (frame_size_bytes data)).1
      else data.samples i }

/-- The `while` loop of `receive_audio`, with a bound on the number of times the condition
is tested; `ext k` supplies the external results of the `k`-th `encode_audio`. When the
bound is used up the result is `fault.diverges`. -/
def drain_loop : Nat → ffmpeg_data → (Nat → audio_ext) → Nat → Except fault (ffmpeg_data × List call)
  | 0, _, _, _ => Except.error fault.diverges
  | fuel + 1, data, ext, k =>
    if frame_size_bytes data ≤ (data.excess_frames 0).size then
      match encode_audio (pop_planes data) (ext k) with
      | Except.error f => Except.error f
      | Except.ok (data1, c) =>
        match drain_loop fuel data1 ext (k + 1) with
        | Except.error f => Except.error f
        | Except.ok (data2, cs) => Except.ok (data2, c ++ cs)
    else Except.ok (data, [])

/-- The `while` loop of `receive_audio`. An iteration that makes progress removes at least
one byte from plane 0, so the condition is tested at most `size + 1` times unless the loop
never exits (`frame_size_bytes = 0`, or no plane is popped). -/
def drain (data : ffmpeg_data) (ext : Nat → audio_ext) : Except fault (ffmpeg_data × List call) :=
  drain_loop ((data.excess_frames 0).size + 1) data ext 0

/-- `receive_audio`. -/
def receive_audio (data : ffmpeg_data) (frame : audio_data) (ext : Nat → audio_ext) :
    Except fault (ffmpeg_data × List call) :=
  match data.audio with
  | none => Except.error fault.null_deref
  | some _ =>
    if data.start_timestamp = 0 then Except.ok (data, [])
    else
      match prepare_audio data frame with
      | Except.error f => Except.error f
      | Except.ok (false, _) => Except.ok (data, [])
      | Except.ok (true, inp) => drain (push_planes data inp) ext

/-! ## Video conform stage and video path -/

/-- `YUV420_PLANES`. -/
abbrev YUV420_PLANES : Nat := 3

/-- `memcpy(dst + pos_pic, src + pos_frame, n)` between plane memories of distinct
objects. -/
def memcpy (dst : Int → Nat) (pos_pic : Int) (src : Int → Nat) (pos_frame : Int) (n : Nat) :
    Int → Nat :=
  fun a => if pos_pic ≤ a ∧ a < pos_pic + (n : Int) then src (pos_frame + (a - pos_pic)) else dst a

/-- Body of the row loop of `copy_data` for row `y`. A negative `bytes` converts to a
`size_t` beyond the size of any object. -/
def copy_row (frame_rowsize pic_rowsize bytes : Int) (src : Int → Nat) (y : Int)
    (dst : Int → Nat) : Except fault (Int → Nat) :=
  if ¬ in_int (y * frame_rowsize) then Except.error fault.signed_overflow
  else if ¬ in_int (y * pic_rowsize) then Except.error fault.signed_overflow
  else if bytes < 0 then Except.error fault.out_of_bounds
  else Except.ok (memcpy dst (y * pic_rowsize) src (y * frame_rowsize) bytes.toNat)

/-- The row loop of `copy_data` run for the rows `y = 0, ..., n - 1`, in this order. -/
def copy_rows (frame_rowsize pic_rowsize bytes : Int) (src : Int → Nat) :
    Nat → (Int → Nat) → Except fault (Int → Nat)
  | 0, dst => Except.ok dst
  | n + 1, dst =>
    match copy_rows frame_rowsize pic_rowsize bytes src n dst with
    | Except.error f => Except.error f
    | Except.ok m => copy_row frame_rowsize pic_rowsize bytes src (n : Int) m

/-- Local `frame_rowsize` of `copy_data`. -/
def frame_rowsize (frame : video_data) (plane : Nat) : Int := to_int (frame.linesize plane)

/-- Local `bytes` of `copy_data`. -/
def copy_bytes (pic : AVPicture) (frame : video_data) (plane : Nat) : Int :=
  if frame_rowsize frame plane < pic.linesize plane then frame_rowsize frame plane
  else pic.linesize plane

/-- Local `plane_height` of `copy_data`; `/` on `int` truncates towards zero. -/
def plane_height (height : Int) (plane : Nat) : Int :=
  if plane = 0 then height else Int.tdiv height 2

/-- One iteration of the plane loop of `copy_data`: the new memory of plane `plane`. -/
def copy_plane (pic : AVPicture) (frame : video_data) (height : Int) (plane : Nat) :
    Except fault (Int → Nat) :=
  copy_rows (frame_rowsize frame plane) (pic.linesize plane) (copy_bytes pic frame plane)
    (frame.data plane) (plane_height height plane).toNat (pic.data plane)

/-- `copy_data`: planes 0, 1, 2 in this order. -/
def copy_data (pic : AVPicture) (frame : video_data) (height : Int) : Except fault AVPicture :=
  match copy_plane pic frame height 0 with
  | Except.error f => Except.error f
  | Except.ok m0 =>
    match copy_plane pic frame height 1 with
    | Except.error f => Except.error f
    | Except.ok m1 =>
      match copy_plane pic frame height 2 with
      | Except.error f => Except.error f
      | Except.ok m2 =>
        Except.ok { pic with data := fun p =>
          if p = 0 then m0 else if p = 1 then m1 else if p = 2 then m2 else pic.data p }

/-- Results of the external calls made by one run of `receive_video`; `scaled` is what
`sws_scale` leaves in the planes of `dst_picture`. -/
structure video_ext where
  scaled : Nat → Int → Nat
  encode_ret : Int
  got_packet : Int
  packet_size : Int
  write_ret : Int

/-- `data->total_frames++`. -/
def count_frame (data : ffmpeg_data) (c : List call) : Except fault (ffmpeg_data × List call) :=
  if ¬ in_int (data.total_frames + 1) then Except.error fault.signed_overflow
  else Except.ok ({ data with total_frames := data.total_frames + 1 }, c)

/-- The conform step of `receive_video`: `sws_scale` or `copy_data`. -/
def conform (data : ffmpeg_data) (context : AVCodecContext) (frame : video_data) (e : video_ext) :
    Except fault (AVPicture × List call) :=
  if context.pix_fmt ≠ AV_PIX_FMT_YUV420P then
    Except.ok ({ data.dst_picture with data := e.scaled }, [call.sws_scale])
  else
    match copy_data data.dst_picture frame context.height with
    | Except.error f => Except.error f
    | Except.ok pic => Except.ok (pic, [])

/-- The first statement of `receive_video`: `start_timestamp` is taken from the frame if
it is still zero. -/
def set_start_timestamp (data : ffmpeg_data) (frame : video_data) : ffmpeg_data :=
  if data.start_timestamp = 0 then { data with start_timestamp := frame.timestamp } else data

/-- The part of `receive_video` after the conform step: raw-picture write or encode and
write, then `total_frames++`; `c0` is the trace so far. -/
def encode_video (data : ffmpeg_data) (e : video_ext) (c0 : List call) :
    Except fault (ffmpeg_data × List call) :=
  match data.output with
  | none => Except.error fault.null_deref
  | some output =>
    if output.rawpicture then
      count_frame data (c0 ++ [call.av_interleaved_write_frame stream_kind.video])
    else if data.vframe = false then Except.error fault.null_deref
    else
      let c1 := c0 ++ [call.avcodec_encode_video2 data.total_frames]
      if e.encode_ret < 0 then Except.ok (data, c1)
      else if e.encode_ret = 0 ∧ e.got_packet ≠ 0 ∧ e.packet_size ≠ 0 then
        count_frame data (c1 ++ [call.av_interleaved_write_frame stream_kind.video])
      else count_frame data c1

/-- `receive_video`. -/
def receive_video (data : ffmpeg_data) (frame : video_data) (e : video_ext) :
    Except fault (ffmpeg_data × List call) :=
  match data.video with
  | none => Except.error fault.null_deref
  | some video =>
    let context := video.codec
    let data1 := set_start_timestamp data frame
    match conform data1 context frame e with
    | Except.error f => Except.error f
    | Except.ok (pic, c0) => encode_video { data1 with dst_picture := pic } e c0

/-! ## Pipeline lifecycle -/

/-- `convert_ffmpeg_sample_format`. -/
def convert_ffmpeg_sample_format (format : AVSampleFormat) : audio_format :=
  match format with
  | AVSampleFormat.AV_SAMPLE_FMT_U8 => audio_format.AUDIO_FORMAT_U8BIT
  | AVSampleFormat.AV_SAMPLE_FMT_S16 => audio_format.AUDIO_FORMAT_16BIT
  | AVSampleFormat.AV_SAMPLE_FMT_S32 => audio_format.AUDIO_FORMAT_32BIT
  | AVSampleFormat.AV_SAMPLE_FMT_FLT => audio_format.AUDIO_FORMAT_FLOAT
  | AVSampleFormat.AV_SAMPLE_FMT_U8P => audio_format.AUDIO_FORMAT_U8BIT_PLANAR
  | AVSampleFormat.AV_SAMPLE_FMT_S16P => audio_format.AUDIO_FORMAT_16BIT_PLANAR
  | AVSampleFormat.AV_SAMPLE_FMT_S32P => audio_format.AUDIO_FORMAT_32BIT_PLANAR
  | AVSampleFormat.AV_SAMPLE_FMT_FLTP => audio_format.AUDIO_FORMAT_FLOAT_PLANAR
  | _ => audio_format.AUDIO_FORMAT_16BIT

/-- Results of the external calls made during initialisation, each named after the call
or the value it stands for. -/
structure init_env where
  mutex_init_ret : Int
  alloc_output : Option AVFormatContext
  video_info : Bool
  output_height : Nat
  find_video_encoder : Bool
  new_video_stream : Bool
  video_open_ret : Int
  opened_pix_fmt : Int
  vframe_alloc : Bool
  picture_alloc_ret : Int
  picture : AVPicture
  sws_context : Bool
  audio_info : Bool
  samples_per_sec : Nat
  find_audio_encoder : Bool
  new_audio_stream : Bool
  sample_fmt : AVSampleFormat
  audio_planes : Nat
  audio_size : Nat
  aframe_alloc : Bool
  audio_open_ret : Int
  codec_frame_size : Int
  samples_alloc_ret : Int
  avio_open_ret : Int
  write_header_ret : Int

/-- Assignment through the `AVCodec **codec` argument of `new_stream`. -/
def set_codec (data : ffmpeg_data) (k : stream_kind) (v : Bool) : ffmpeg_data :=
  match k with
  | stream_kind.video => { data with vcodec := v }
  | stream_kind.audio => { data with acodec := v }

/-- Assignment through the `AVStream **stream` argument of `new_stream`. -/
def set_stream (data : ffmpeg_data) (k : stream_kind) (v : Option AVStream) : ffmpeg_data :=
  match k with
  | stream_kind.video => { data with video := v }
  | stream_kind.audio => { data with audio := v }

/-- `new_stream`; `found` and `created` say whether `avcodec_find_encoder` and
`avformat_new_stream` return a non-null pointer. -/
def new_stream (data : ffmpeg_data) (k : stream_kind) (found created : Bool) :
    Except fault (Bool × ffmpeg_data × List call) :=
  let data1 := set_codec data k found
  let c1 := [call.avcodec_find_encoder k]
  if found = false then Except.ok (false, data1, c1)
  else
    let stream : Option AVStream :=
      if created then some { codec := { pix_fmt := 0, height := 0, frame_size := 0 } } else none
    let data2 := set_stream data1 k stream
    let c2 := c1 ++ [call.avformat_new_stream k]
    if created = false then Except.ok (false, data2, c2)
    else
      match data2.output with
      | none => Except.error fault.null_deref
      | some _ => Except.ok (true, data2, c2)

/-- `open_video_codec`. -/
def open_video_codec (data : ffmpeg_data) (env : init_env) :
    Except fault (Bool × ffmpeg_data × List call) :=
  match data.video with
  | none => Except.error fault.null_deref
  | some video =>
    let c1 := [call.avcodec_open2 stream_kind.video]
    if env.video_open_ret < 0 then Except.ok (false, data, c1)
    else
      let context := { video.codec with pix_fmt := env.opened_pix_fmt }
      let data1 := { data with video := some { codec := context }, vframe := env.vframe_alloc }
      let c2 := c1 ++ [call.av_frame_alloc stream_kind.video]
      if env.vframe_alloc = false then Except.ok (false, data1, c2)
      else
        let c3 := c2 ++ [call.avpicture_alloc]
        if env.picture_alloc_ret < 0 then Except.ok (false, data1, c3)
        else Except.ok (true, { data1 with dst_picture := env.picture }, c3)

/-- `init_swscale`. -/
def init_swscale (data : ffmpeg_data) (env : init_env) : Bool × ffmpeg_data × List call :=
  (env.sws_context, { data with swscale := env.sws_context }, [call.sws_getContext])

/-- `create_video_stream`. -/
def create_video_stream (data : ffmpeg_data) (env : init_env) :
    Except fault (Bool × ffmpeg_data × List call) :=
  if env.video_info = false then Except.ok (false, data, [])
  else
    match data.output with
    | none => Except.error fault.null_deref
    | some _ =>
      match new_stream data stream_kind.video env.find_video_encoder env.new_video_stream with
      | Except.error f => Except.error f
      | Except.ok (false, data1, c1) => Except.ok (false, data1, c1)
      | Except.ok (true, data1, c1) =>
        match data1.video with
        | none => Except.error fault.null_deref
        | some video =>
          let context :=
            { video.codec with height := to_int env.output_height, pix_fmt := AV_PIX_FMT_YUV420P }
          match open_video_codec { data1 with video := some { codec := context } } env with
          | Except.error f => Except.error f
          | Except.ok (false, data2, c2) => Except.ok (false, data2, c1 ++ c2)
          | Except.ok (true, data2, c2) =>
            match data2.video with
            | none => Except.error fault.null_deref
            | some video2 =>
              if video2.codec.pix_fmt ≠ AV_PIX_FMT_YUV420P then
                match init_swscale data2 env with
                | (false, data3, c3) => Except.ok (false, data3, c1 ++ c2 ++ c3)
                | (true, data3, c3) => Except.ok (true, data3, c1 ++ c2 ++ c3)
              else Except.ok (true, data2, c1 ++ c2)

/-- `open_audio_codec`. -/
def open_audio_codec (data : ffmpeg_data) (env : init_env) :
    Except fault (Bool × ffmpeg_data × List call) :=
  match data.audio with
  | none => Except.error fault.null_deref
  | some audio =>
    let data1 := { data with aframe := env.aframe_alloc }
    let c1 := [call.av_frame_alloc stream_kind.audio]
    if env.aframe_alloc = false then Except.ok (false, data1, c1)
    else
      let c2 := c1 ++ [call.avcodec_open2 stream_kind.audio]
      if env.audio_open_ret < 0 then Except.ok (false, data1, c2)
      else
        let context := { audio.codec with frame_size := env.codec_frame_size }
        let data2 :=
          { data1 with
            audio := some { codec := context },
            frame_size := if context.frame_size ≠ 0 then context.frame_size else 1024 }
        let c3 := c2 ++ [call.av_samples_alloc]
        if env.samples_alloc_ret < 0 then Except.ok (false, data2, c3)
        else Except.ok (true, data2, c3)

/-- `create_audio_stream`; the values of `get_audio_planes` and `get_audio_size` come from
the environment. -/
def create_audio_stream (data : ffmpeg_data) (env : init_env) :
    Except fault (Bool × ffmpeg_data × List call) :=
  if env.audio_info = false then Except.ok (false, data, [])
  else
    match data.output with
    | none => Except.error fault.null_deref
    | some _ =>
      match new_stream data stream_kind.audio env.find_audio_encoder env.new_audio_stream with
      | Except.error f => Except.error f
      | Except.ok (false, data1, c1) => Except.ok (false, data1, c1)
      | Except.ok (true, data1, c1) =>
        match data1.audio with
        | none => Except.error fault.null_deref
        | some _ =>
          let data2 :=
            { data1 with
              audio_samplerate := env.samples_per_sec,
              audio_format := convert_ffmpeg_sample_format env.sample_fmt,
              audio_planes := env.audio_planes,
              audio_size := env.audio_size }
          match open_audio_codec data2 env with
          | Except.error f => Except.error f
          | Except.ok (r, data3, c2) => Except.ok (r, data3, c1 ++ c2)

/-- `init_streams`. -/
def init_streams (data : ffmpeg_data) (env : init_env) :
    Except fault (Bool × ffmpeg_data × List call) :=
  match data.output with
  | none => Except.error fault.null_deref
  | some format =>
    match (if format.video_codec ≠ AV_CODEC_ID_NONE then create_video_stream data env
           else Except.ok (true, data, [])) with
    | Except.error f => Except.error f
    | Except.ok (false, data1, c1) => Except.ok (false, data1, c1)
    | Except.ok (true, data1, c1) =>
      if format.audio_codec ≠ AV_CODEC_ID_NONE then
        match create_audio_stream data1 env with
        | Except.error f => Except.error f
        | Except.ok (r, data2, c2) => Except.ok (r, data2, c1 ++ c2)
      else Except.ok (true, data1, c1)

/-- `open_output_file`. -/
def open_output_file (data : ffmpeg_data) (env : init_env) :
    Except fault (Bool × ffmpeg_data × List call) :=
  match data.output with
  | none => Except.error fault.null_deref
  | some format =>
    let c1 := if format.nofile = false then [call.avio_open] else []
    if format.nofile = false ∧ env.avio_open_ret < 0 then Except.ok (false, data, c1)
    else
      let c2 := c1 ++ [call.avformat_write_header]
      if env.write_header_ret < 0 then Except.ok (false, data, c2)
      else Except.ok (true, data, c2)

/-- `close_video`. -/
def close_video (data : ffmpeg_data) : Except fault (ffmpeg_data × List call) :=
  match data.video with
  | none => Except.error fault.null_deref
  | some _ =>
    Except.ok ({ data with vframe := false },
      [call.avcodec_close stream_kind.video, call.avpicture_free,
       call.av_frame_free stream_kind.video])

/-- `close_audio`. -/
def close_audio (data : ffmpeg_data) : Except fault (ffmpeg_data × List call) :=
  match data.audio with
  | none => Except.error fault.null_deref
  | some _ =>
    Except.ok
      ({ data with excess_frames := fun i => circlebuf_free (data.excess_frames i), aframe := false },
       [call.circlebuf_free_all, call.av_freep_samples, call.avcodec_close stream_kind.audio,
        call.av_frame_free stream_kind.audio])

/-- `ffmpeg_data_free`. -/
def ffmpeg_data_free (data : ffmpeg_data) : Except fault (ffmpeg_data × List call) :=
  let c0 := if data.initialized then [call.av_write_trailer] else []
  match (if data.video.isSome then close_video data else Except.ok (data, [])) with
  | Except.error f => Except.error f
  | Except.ok (data1, c1) =>
    match (if data1.audio.isSome then close_audio data1 else Except.ok (data1, [])) with
    | Except.error f => Except.error f
    | Except.ok (data2, c2) =>
      match data2.output with
      | none => Except.error fault.null_deref
      | some format =>
        let c3 := if format.nofile = false then [call.avio_close] else []
        Except.ok (ffmpeg_data.zero,
          c0 ++ c1 ++ c2 ++ c3 ++ [call.avformat_free_context, call.pthread_mutex_destroy])

/-- The `fail:` label of `ffmpeg_data_init`. -/
def init_fail (data : ffmpeg_data) (c : List call) : Except fault (Bool × ffmpeg_data × List call) :=
  match ffmpeg_data_free data with
  | Except.error f => Except.error f
  | Except.ok (data1, c1) => Except.ok (false, data1, c ++ c1)

/-- `ffmpeg_data_init`; the incoming contents of `*data` are overwritten by the `memset`. -/
def ffmpeg_data_init (_data : ffmpeg_data) (filename : Option String) (env : init_env) :
    Except fault (Bool × ffmpeg_data × List call) :=
  let data0 := { ffmpeg_data.zero with filename_test := filename }
  match filename with
  | none => Except.ok (false, data0, [])
  | some name =>
    if name.isEmpty then Except.ok (false, data0, [])
    else
      let c0 := [call.pthread_mutex_init]
      if env.mutex_init_ret ≠ 0 then Except.ok (false, data0, c0)
      else
        let data1 := { data0 with output := env.alloc_output }
        let c1 := c0 ++ [call.avformat_alloc_output_context2]
        if data1.output.isNone then init_fail data1 c1
        else
          match init_streams data1 env with
          | Except.error f => Except.error f
          | Except.ok (false, data2, c2) => init_fail data2 (c1 ++ c2)
          | Except.ok (true, data2, c2) =>
            match open_output_file data2 env with
            | Except.error f => Except.error f
            | Except.ok (false, data3, c3) => init_fail data3 (c1 ++ c2 ++ c3)
            | Except.ok (true, data3, c3) =>
              Except.ok (true, { data3 with initialized := true }, c1 ++ c2 ++ c3)

/-- What the host answers during `ffmpeg_output_start`: whether `obs_video()` and
`obs_audio()` are non-null, the `filename` setting, and the results of the calls made by
`ffmpeg_data_init`. -/
structure host_env where
  video : Bool
  audio : Bool
  filename : Option String
  init : init_env

/-- `ffmpeg_output_create`: a zero-filled `struct ffmpeg_output`. -/
def ffmpeg_output_create : ffmpeg_output := { active := false, ff_data := ffmpeg_data.zero }

/-- `ffmpeg_output_start`. -/
def ffmpeg_output_start (output : ffmpeg_output) (host : host_env) :
    Except fault (Bool × ffmpeg_output × List call) :=
  if host.video = false ∨ host.audio = false then Except.ok (false, output, [])
  else
    match host.filename with
    | none => Except.ok (false, output, [])
    | some name =>
      if name.isEmpty then Except.ok (false, output, [])
      else
        match ffmpeg_data_init output.ff_data host.filename host.init with
        | Except.error f => Except.error f
        | Except.ok (false, data, c) => Except.ok (false, { output with ff_data := data }, c)
        | Except.ok (true, data, c) =>
          Except.ok (true, { active := true, ff_data := data },
            c ++ [call.video_output_connect, call.audio_output_connect])

/-- `ffmpeg_output_stop`. -/
def ffmpeg_output_stop (output : ffmpeg_output) : Except fault (ffmpeg_output × List call) :=
  if output.active then
    match ffmpeg_data_free output.ff_data with
    | Except.error f => Except.error f
    | Except.ok (data, c) =>
      Except.ok ({ active := false, ff_data := data },
        [call.video_output_disconnect, call.audio_output_disconnect] ++ c)
  else Except.ok (output, [])

/-- `ffmpeg_output_active`. -/
def ffmpeg_output_active (output : ffmpeg_output) : Bool := output.active

/-! ## Sequences of deliveries -/

/-- One callback of the host: a video frame or an audio block, each with the results of
the external calls made while it is processed. -/
inductive delivery where
  | video (frame : video_data) (e : video_ext)
  | audio (frame : audio_data) (ext : Nat → audio_ext)

/-- The callback for one delivery. -/
def deliver (data : ffmpeg_data) (ev : delivery) : Except fault (ffmpeg_data × List call) :=
  match ev with
  | delivery.video frame e => receive_video data frame e
  | delivery.audio frame ext => receive_audio data frame ext

/-- The callbacks for a sequence of deliveries, one after the other. -/
def run : ffmpeg_data → List delivery → Except fault (ffmpeg_data × List call)
  | data, [] => Except.ok (data, [])
  | data, ev :: rest =>
    match deliver data ev with
    | Except.error f => Except.error f
    | Except.ok (data1, c1) =>
      match run data1 rest with
      | Except.error f => Except.error f
      | Except.ok (data2, c2) => Except.ok (data2, c1 ++ c2)

/-- Timestamp of the first video frame of a sequence of deliveries. -/
def first_video_timestamp : List delivery → Option Nat
  | [] => none
  | delivery.video frame _ :: _ => some frame.timestamp
  | delivery.audio _ _ :: rest => first_video_timestamp rest

/-! ## Lock-step of the plane buffers -/

/-- The active planes hold as many bytes as plane 0. -/
def lock_step (data : ffmpeg_data) : Prop :=
  ∀ i, i < data.audio_planes → (data.excess_frames i).size = (data.excess_frames 0).size

/-- The planes beyond `audio_planes` hold nothing. -/
def inactive_empty (data : ffmpeg_data) : Prop :=
  ∀ i, data.audio_planes ≤ i → (data.excess_frames i).size = 0

/-- The loop condition in the words of the spec, section 4.4: "while every plane's buffer
holds at least one encoder frame's worth of bytes", over the active planes. -/
def every_plane_holds_frame (data : ffmpeg_data) : Bool :=
  (List.range data.audio_planes).all
    (fun i => decide (frame_size_bytes data ≤ (data.excess_frames i).size))

/-- The drain loop with the condition of the spec (every plane is tested) in place of the
test of plane 0; otherwise as `drain_loop`. -/
def drain_loop_every :
    Nat → ffmpeg_data → (Nat → audio_ext) → Nat → Except fault (ffmpeg_data × List call)
  | 0, _, _, _ => Except.error fault.diverges
  | fuel + 1, data, ext, k =>
    if every_plane_holds_frame data = true then
      match encode_audio (pop_planes data) (ext k) with
      | Except.error f => Except.error f
      | Except.ok (data1, c) =>
        match drain_loop_every fuel data1 ext (k + 1) with
        | Except.error f => Except.error f
        | Except.ok (data2, cs) => Except.ok (data2, c ++ cs)
    else Except.ok (data, [])

/-- `receive_audio` with the drain loop of the spec (every plane is tested). -/
def receive_audio_every (data : ffmpeg_data) (frame : audio_data) (ext : Nat → audio_ext) :
    Except fault (ffmpeg_data × List call) :=
  match data.audio with
  | none => Except.error fault.null_deref
  | some _ =>
    if data.start_timestamp = 0 then Except.ok (data, [])
    else
      match prepare_audio data frame with
      | Except.error f => Except.error f
      | Except.ok (false, _) => Except.ok (data, [])
      | Except.ok (true, inp) =>
        drain_loop_every (((push_planes data inp).excess_frames 0).size + 1)
          (push_planes data inp) ext 0

/-! ## Bookkeeping for the initialisation -/

/-- The fields that no step of the initialisation touches. -/
def init_keeps (d d' : ffmpeg_data) : Prop :=
  d'.output = d.output ∧ d'.initialized = d.initialized ∧
  d'.start_timestamp = d.start_timestamp ∧ d'.total_samples = d.total_samples ∧
  d'.total_frames = d.total_frames ∧ d'.excess_frames = d.excess_frames

/-- Calls that undo a step of the initialisation or finish the output. -/
def teardown_call (x : call) : Bool :=
  match x with
  | call.av_write_trailer => true
  | call.avcodec_close _ => true
  | call.avpicture_free => true
  | call.av_frame_free _ => true
  | call.circlebuf_free_all => true
  | call.av_freep_samples => true
  | call.avio_close => true
  | call.avformat_free_context => true
  | call.pthread_mutex_destroy => true
  | _ => false

/-! ## Sample values -/

/-- A pipeline as left by a successful initialisation for 48 kHz stereo planar float audio
(4 bytes per sample and plane, encoder frames of 1024 samples) and 4x2 video, after a first
video frame stamped 1,000,000,000 ns. -/
def sample_data : ffmpeg_data :=
  { ffmpeg_data.zero with
    video := some { codec := { pix_fmt := AV_PIX_FMT_YUV420P, height := 2, frame_size := 0 } },
    audio := some { codec := { pix_fmt := 0, height := 0, frame_size := 1024 } },
    acodec := true, vcodec := true,
    output := some { video_codec := 1, audio_codec := 2, nofile := false,
                     globalheader := false, rawpicture := false },
    dst_picture := { data := fun _ _ => 0, linesize := fun p => if p = 0 then 8 else 4 },
    vframe := true, aframe := true, frame_size := 1024,
    start_timestamp := 1000000000, audio_samplerate := 48000,
    audio_format := audio_format.AUDIO_FORMAT_FLOAT_PLANAR,
    audio_planes := 2, audio_size := 4,
    filename_test := some "out.mp4", initialized := true }

/-- An audio block of `frames` frames stamped `timestamp`; byte `k` of each plane holds
`k % 256`. -/
def sample_block (timestamp frames : Nat) : audio_data :=
  { data := fun _ => { obj := fun k => k % 256, off := 0 }, frames := frames,
    timestamp := timestamp }

/-- External results of an encoder that accepts every frame and emits a packet each time. -/
def sample_audio_ext : Nat → audio_ext :=
  fun _ => { fill_ret := 0, encode_ret := 0, got_packet := 1, write_ret := 0 }

/-- A 4x2 video frame stamped `timestamp`; byte `a` of each plane holds `a % 256`. -/
def sample_frame (timestamp : Nat) : video_data :=
  { data := fun _ a => (a % 256).toNat, linesize := fun p => if p = 0 then 4 else 2,
    timestamp := timestamp }

/-- External results of a video encoder that accepts the frame and emits a packet. -/
def sample_video_ext : video_ext :=
  { scaled := fun _ _ => 0, encode_ret := 0, got_packet := 1, packet_size := 100,
    write_ret := 0 }

/-- Results of an initialisation in which every external call succeeds, for a format with
a video and an audio codec that writes to a file. -/
def sample_env : init_env :=
  { mutex_init_ret := 0,
    alloc_output := some { video_codec := 1, audio_codec := 2, nofile := false,
                           globalheader := false, rawpicture := false },
    video_info := true, output_height := 2, find_video_encoder := true,
    new_video_stream := true, video_open_ret := 0, opened_pix_fmt := AV_PIX_FMT_YUV420P,
    vframe_alloc := true, picture_alloc_ret := 0,
    picture := { data := fun _ _ => 0, linesize := fun p => if p = 0 then 8 else 4 },
    sws_context := true, audio_info := true, samples_per_sec := 48000,
    find_audio_encoder := true, new_audio_stream := true,
    sample_fmt := AVSampleFormat.AV_SAMPLE_FMT_FLTP, audio_planes := 2, audio_size := 4,
    aframe_alloc := true, audio_open_ret := 0, codec_frame_size := 1024,
    samples_alloc_ret := 0, avio_open_ret := 0, write_header_ret := 0 }

/-- A host with active video and audio whose `filename` setting is `out.mp4` and for which
every external call of the initialisation succeeds. -/
def sample_host : host_env :=
  { video := true, audio := true, filename := some "out.mp4", init := sample_env }

/-- The pipeline after `ffmpeg_output_start` on `sample_host`, starting from the output as
created. -/
def sample_started : ffmpeg_output :=
  match ffmpeg_output_start ffmpeg_output_create sample_host with
  | Except.ok (_, output, _) => output
  | Except.error _ => ffmpeg_output_create

/-- A 4x4 video frame (source rows of 4, 2, 2 bytes); byte `a` of each plane holds
`a % 256`. -/
def sample_tall_frame : video_data :=
  { data := fun _ a => (a % 256).toNat, linesize := fun p => if p = 0 then 4 else 2,
    timestamp := 0 }

/-! ## Frames handed to the encoder -/

/-- The sample buffers handed to `avcodec_fill_audio_frame` by the successive runs of
`encode_audio` recorded in a trace, oldest first. -/
def fill_planes : List call → List (List (List Nat))
  | [] => []
  | call.avcodec_fill_audio_frame _ planes :: rest => planes :: fill_planes rest
  | _ :: rest => fill_planes rest

/-- The `j`-th encoder frame of a byte stream per plane: for each active plane the
`frame_size_bytes` bytes that follow the first `j * frame_size_bytes`. -/
def frame_chunk (fsb planes : Nat) (stream : Nat → List Nat) (j : Nat) : List (List Nat) :=
  (List.range planes).map (fun i => ((stream i).drop (j * fsb)).take fsb)

/-- A pipeline with encoder frames of 2 samples (8 bytes per plane) whose two planes
already hold the 4 bytes 100, 101, 102, 103. -/
def sample_buffered : ffmpeg_data :=
  { sample_data with
    frame_size := 2,
    excess_frames := fun i => if i < 2 then { bytes := [100, 101, 102, 103] } else { bytes := [] } }

/-! ## Supporting lemmas -/

theorem cutoff_arith (start ts frames rate : Nat) (h_start : start < u64) (h_ts : ts < start)
    (h_end : start < (ts + (frames * 1000000000 % u64) / rate) % u64) :
    (start - ts) * rate + rate ≤ frames * 1000000000 % u64 ∧ 0 < rate := by
  have hX : frames * 1000000000 % u64 < u64 := Nat.mod_lt _ (by decide)
  have hdur : (frames * 1000000000 % u64) / rate ≤ frames * 1000000000 % u64 := Nat.div_le_self _ _
  have hmul : (frames * 1000000000 % u64) / rate * rate ≤ frames * 1000000000 % u64 :=
    Nat.div_mul_le_self _ _
  generalize frames * 1000000000 % u64 = X at *
  generalize hd : X / rate = dur at *
  have hlt : start - ts + 1 ≤ dur := by
    simp only [u64] at *
    omega
  have hr : 0 < rate := by
    rcases Nat.eq_zero_or_pos rate with h0 | h0
    · subst h0
      simp at hd
      omega
    · exact h0
  refine ⟨?_, hr⟩
  calc (start - ts) * rate + rate = (start - ts + 1) * rate := by ring
    _ ≤ dur * rate := Nat.mul_le_mul_right _ hlt
    _ ≤ X := hmul

theorem cutoff_bounds (data : ffmpeg_data) (frame : audio_data)
    (h_start : data.start_timestamp < u64) (h_ts : frame.timestamp < data.start_timestamp)
    (h_end : data.start_timestamp < audio_end_ts data frame) :
    (data.start_timestamp - frame.timestamp) * data.audio_samplerate < u64 ∧
    audio_cutoff data frame
      = (data.start_timestamp - frame.timestamp) * data.audio_samplerate / 1000000000 ∧
    audio_cutoff data frame < frame.frames ∧ data.audio_samplerate ≠ 0 := by
  obtain ⟨h1, hr⟩ := cutoff_arith data.start_timestamp frame.timestamp frame.frames
    data.audio_samplerate h_start h_ts h_end
  have hX : frame.frames * 1000000000 % u64 < u64 := Nat.mod_lt _ (by decide)
  have hX2 : frame.frames * 1000000000 % u64 ≤ frame.frames * 1000000000 := Nat.mod_le _ _
  have hlt : (data.start_timestamp - frame.timestamp) * data.audio_samplerate < u64 := by omega
  have hc : audio_cutoff data frame
      = (data.start_timestamp - frame.timestamp) * data.audio_samplerate / 1000000000 := by
    unfold audio_cutoff
    rw [Nat.mod_eq_of_lt hlt]
  refine ⟨hlt, hc, ?_, by omega⟩
  rw [hc]
  apply Nat.div_lt_of_lt_mul
  omega

theorem encode_audio_fields (output : ffmpeg_data) (e : audio_ext) (r : ffmpeg_data × List call)
    (h : encode_audio output e = Except.ok r) :
    r.1.excess_frames = output.excess_frames ∧ r.1.audio_planes = output.audio_planes ∧
    r.1.audio_size = output.audio_size ∧ r.1.frame_size = output.frame_size ∧
    r.1.start_timestamp = output.start_timestamp ∧ r.1.total_frames = output.total_frames ∧
    r.1.audio = output.audio ∧ r.1.audio_samplerate = output.audio_samplerate ∧
    r.1.total_samples
      = (if e.fill_ret < 0 then output.total_samples
         else output.total_samples + output.frame_size) := by
  unfold encode_audio at h
  split_ifs at h with h1 h2 h3 h4 h5
  all_goals first
    | (simp at h; done)
    | (simp at h; subst h; simp [*])
    | (split at h <;> first | (simp at h; done) | (simp at h; subst h; simp [*]))

theorem count_frame_fields (data : ffmpeg_data) (c : List call) (r : ffmpeg_data × List call)
    (h : count_frame data c = Except.ok r) :
    r.1 = { data with total_frames := data.total_frames + 1 } ∧ r.2 = c := by
  unfold count_frame at h
  split_ifs at h with h1
  simp at h
  subst h
  simp

theorem encode_video_fields (data : ffmpeg_data) (e : video_ext) (c0 : List call)
    (r : ffmpeg_data × List call) (h : encode_video data e c0 = Except.ok r) :
    ∃ output, data.output = some output ∧
      r.1 = { data with total_frames :=
        if output.rawpicture = false ∧ e.encode_ret < 0 then data.total_frames
        else data.total_frames + 1 } := by
  unfold encode_video at h
  split at h
  · simp at h
  rename_i output ho
  refine ⟨output, ho, ?_⟩
  split_ifs at h with h1 h2 h3 h4
  all_goals first
    | (simp at h; done)
    | (rw [(count_frame_fields _ _ _ h).1]; simp [*])
    | (simp at h; subst h; cases data; simp_all)

theorem set_start_timestamp_fields (data : ffmpeg_data) (frame : video_data) :
    set_start_timestamp data frame
      = { data with start_timestamp :=
            if data.start_timestamp = 0 then frame.timestamp else data.start_timestamp } := by
  unfold set_start_timestamp
  split_ifs with h
  · rfl
  · rfl

theorem receive_video_fields (data : ffmpeg_data) (frame : video_data) (e : video_ext)
    (r : ffmpeg_data × List call) (h : receive_video data frame e = Except.ok r) :
    r.1.excess_frames = data.excess_frames ∧ r.1.audio_planes = data.audio_planes ∧
    r.1.audio_size = data.audio_size ∧ r.1.frame_size = data.frame_size ∧
    r.1.total_samples = data.total_samples ∧
    r.1.audio = data.audio ∧ r.1.audio_samplerate = data.audio_samplerate ∧
    r.1.start_timestamp
      = (if data.start_timestamp = 0 then frame.timestamp else data.start_timestamp) ∧
    ∃ output, data.output = some output ∧
      r.1.total_frames
        = (if output.rawpicture = false ∧ e.encode_ret < 0 then data.total_frames
           else data.total_frames + 1) := by
  unfold receive_video at h
  rw [set_start_timestamp_fields] at h
  split at h
  · simp at h
  dsimp only at h
  split at h
  · simp at h
  obtain ⟨output, ho, hr⟩ := encode_video_fields _ _ _ _ h
  rw [hr]
  exact ⟨rfl, rfl, rfl, rfl, rfl, rfl, rfl, rfl, output, ho, rfl⟩

theorem pop_planes_size (data : ffmpeg_data) (i : Nat) :
    ((pop_planes data).excess_frames i).size
      = if i < data.audio_planes then (data.excess_frames i).size - frame_size_bytes data
        else (data.excess_frames i).size := by
  unfold pop_planes circlebuf_pop_front circlebuf.size
  split_ifs with h <;> simp [h]

theorem push_planes_size (data : ffmpeg_data) (inp : audio_data) (i : Nat) :
    ((push_planes data inp).excess_frames i).size
      = if i < data.audio_planes then
          (data.excess_frames i).size + inp.frames * data.audio_size % u64
        else (data.excess_frames i).size := by
  unfold push_planes circlebuf_push_back circlebuf.size pointer.read
  split_ifs with h <;> simp [h]

theorem lock_step_push (data : ffmpeg_data) (inp : audio_data) (h : lock_step data) :
    lock_step (push_planes data inp) := by
  intro i hi
  have hi' : i < data.audio_planes := hi
  have h0 : 0 < data.audio_planes := by omega
  rw [push_planes_size, push_planes_size, if_pos hi', if_pos h0, h i hi']

theorem lock_step_pop (data : ffmpeg_data) (h : lock_step data) : lock_step (pop_planes data) := by
  intro i hi
  have hi' : i < data.audio_planes := hi
  have h0 : 0 < data.audio_planes := by omega
  rw [pop_planes_size, pop_planes_size, if_pos hi', if_pos h0, h i hi']

theorem inactive_empty_push (data : ffmpeg_data) (inp : audio_data) (h : inactive_empty data) :
    inactive_empty (push_planes data inp) := by
  intro i hi
  have hi' : ¬ i < data.audio_planes := Nat.not_lt.mpr hi
  rw [push_planes_size, if_neg hi']
  exact h i hi

theorem inactive_empty_pop (data : ffmpeg_data) (h : inactive_empty data) :
    inactive_empty (pop_planes data) := by
  intro i hi
  have hi' : ¬ i < data.audio_planes := Nat.not_lt.mpr hi
  rw [pop_planes_size, if_neg hi']
  exact h i hi

theorem lock_step_congr (d d' : ffmpeg_data) (h1 : d'.excess_frames = d.excess_frames)
    (h2 : d'.audio_planes = d.audio_planes) : (lock_step d → lock_step d') ∧
    (inactive_empty d → inactive_empty d') := by
  unfold lock_step inactive_empty
  rw [h1, h2]
  exact ⟨id, id⟩

/-- What the drain loop leaves unchanged, and what it preserves. -/
theorem drain_loop_fields (ext : Nat → audio_ext) :
    ∀ (fuel : Nat) (data : ffmpeg_data) (k : Nat) (r : ffmpeg_data × List call),
      drain_loop fuel data ext k = Except.ok r →
      r.1.audio_planes = data.audio_planes ∧ r.1.audio_size = data.audio_size ∧
      r.1.frame_size = data.frame_size ∧ r.1.start_timestamp = data.start_timestamp ∧
      r.1.total_frames = data.total_frames ∧ r.1.audio = data.audio ∧
      r.1.audio_samplerate = data.audio_samplerate ∧
      (lock_step data → lock_step r.1) ∧ (inactive_empty data → inactive_empty r.1) ∧
      (0 ≤ data.frame_size → data.total_samples ≤ r.1.total_samples) := by
  intro fuel
  induction fuel with
  | zero =>
    intro data k r h
    simp [drain_loop] at h
  | succ n ih =>
    intro data k r h
    unfold drain_loop at h
    split_ifs at h with hc
    · split at h
      · simp at h
      rename_i data1 c he
      split at h
      · simp at h
      rename_i data2 cs hd
      have h' := Except.ok.inj h
      subst h'
      obtain ⟨e1, e2, e3, e4, e5, e6, e7, e8, e9⟩ := encode_audio_fields _ _ _ he
      obtain ⟨d1, d2, d3, d4, d5, d6, d7, d8, d9, d10⟩ := ih _ _ _ hd
      simp only at e1 e2 e3 e4 e5 e6 e7 e8 e9 d1 d2 d3 d4 d5 d6 d7 d8 d9 d10 ⊢
      have hl := lock_step_congr (pop_planes data) data1 e1 e2
      refine ⟨by rw [d1, e2]; rfl, by rw [d2, e3]; rfl, by rw [d3, e4]; rfl, by rw [d4, e5]; rfl,
        by rw [d5, e6]; rfl, by rw [d6, e7]; rfl, by rw [d7, e8]; rfl, ?_, ?_, ?_⟩
      · intro hls
        exact d8 (hl.1 (lock_step_pop data hls))
      · intro hie
        exact d9 (hl.2 (inactive_empty_pop data hie))
      · intro hfs
        have hfs1 : 0 ≤ data1.frame_size := by rw [e4]; exact hfs
        have := d10 hfs1
        have hfs2 : (pop_planes data).frame_size = data.frame_size := rfl
        have hts : (pop_planes data).total_samples = data.total_samples := rfl
        rw [hfs2, hts] at e9
        split_ifs at e9 <;> omega
    · have h' := Except.ok.inj h
      subst h'
      exact ⟨rfl, rfl, rfl, rfl, rfl, rfl, rfl, id, id, fun _ => le_refl _⟩

/-- What `receive_audio` leaves unchanged, and what it preserves. -/
theorem receive_audio_fields (data : ffmpeg_data) (frame : audio_data) (ext : Nat → audio_ext)
    (r : ffmpeg_data × List call) (h : receive_audio data frame ext = Except.ok r) :
    r.1.audio_planes = data.audio_planes ∧ r.1.audio_size = data.audio_size ∧
    r.1.frame_size = data.frame_size ∧ r.1.start_timestamp = data.start_timestamp ∧
    r.1.total_frames = data.total_frames ∧ r.1.audio = data.audio ∧
    r.1.audio_samplerate = data.audio_samplerate ∧
    (lock_step data → lock_step r.1) ∧ (inactive_empty data → inactive_empty r.1) ∧
    (0 ≤ data.frame_size → data.total_samples ≤ r.1.total_samples) := by
  unfold receive_audio at h
  split at h
  · simp at h
  split_ifs at h with h0
  · have h' := Except.ok.inj h
    subst h'
    exact ⟨rfl, rfl, rfl, rfl, rfl, rfl, rfl, id, id, fun _ => le_refl _⟩
  split at h
  · simp at h
  · have h' := Except.ok.inj h
    subst h'
    exact ⟨rfl, rfl, rfl, rfl, rfl, rfl, rfl, id, id, fun _ => le_refl _⟩
  · rename_i inp hp
    obtain ⟨d1, d2, d3, d4, d5, d6, d7, d8, d9, d10⟩ := drain_loop_fields ext _ _ _ _ h
    exact ⟨d1, d2, d3, d4, d5, d6, d7, fun hl => d8 (lock_step_push data inp hl),
      fun hl => d9 (inactive_empty_push data inp hl), d10⟩

theorem every_plane_iff (data : ffmpeg_data) (hl : lock_step data) (hp : 0 < data.audio_planes) :
    every_plane_holds_frame data = true
      ↔ frame_size_bytes data ≤ (data.excess_frames 0).size := by
  unfold every_plane_holds_frame
  rw [List.all_eq_true]
  constructor
  · intro h
    have := h 0 (List.mem_range.mpr hp)
    simpa using this
  · intro h i hi
    have hi' := List.mem_range.mp hi
    rw [decide_eq_true_eq, hl i hi']
    exact h

/-- Under lock-step, with at least one active plane, the loop that tests every plane and
the loop that tests plane 0 are the same function. -/
theorem drain_loop_every_eq (ext : Nat → audio_ext) :
    ∀ (fuel : Nat) (data : ffmpeg_data) (k : Nat), lock_step data → 0 < data.audio_planes →
      drain_loop_every fuel data ext k = drain_loop fuel data ext k := by
  intro fuel
  induction fuel with
  | zero =>
    intro data k _ _
    rfl
  | succ n ih =>
    intro data k hl hp
    unfold drain_loop_every drain_loop
    simp only [every_plane_iff data hl hp]
    split_ifs with hc
    · cases he : encode_audio (pop_planes data) (ext k) with
      | error f => rfl
      | ok p =>
        obtain ⟨data1, c⟩ := p
        obtain ⟨e1, e2, _⟩ := encode_audio_fields _ _ _ he
        have hl1 : lock_step data1 :=
          (lock_step_congr (pop_planes data) data1 e1 e2).1 (lock_step_pop data hl)
        have hp1 : 0 < data1.audio_planes := by
          have : data1.audio_planes = data.audio_planes := e2
          omega
        simp only [ih data1 (k + 1) hl1 hp1]
    · rfl

theorem receive_audio_every_eq (data : ffmpeg_data) (frame : audio_data) (ext : Nat → audio_ext)
    (hl : lock_step data) (hp : 0 < data.audio_planes) :
    receive_audio_every data frame ext = receive_audio data frame ext := by
  unfold receive_audio_every receive_audio drain
  split
  · rfl
  split_ifs with h0
  · rfl
  split
  · rfl
  · rfl
  · rename_i inp _
    exact drain_loop_every_eq ext _ _ _ (lock_step_push data inp hl) hp

/-- What one delivery leaves unchanged, and what it preserves. -/
theorem deliver_fields (data : ffmpeg_data) (ev : delivery) (r : ffmpeg_data × List call)
    (h : deliver data ev = Except.ok r) :
    r.1.audio_planes = data.audio_planes ∧ r.1.audio_size = data.audio_size ∧
    r.1.frame_size = data.frame_size ∧
    (lock_step data → lock_step r.1) ∧ (inactive_empty data → inactive_empty r.1) ∧
    (0 ≤ data.frame_size → data.total_samples ≤ r.1.total_samples) ∧
    data.total_frames ≤ r.1.total_frames ∧
    (data.start_timestamp ≠ 0 → r.1.start_timestamp = data.start_timestamp) := by
  cases ev with
  | video frame e =>
    obtain ⟨v1, v2, v3, v4, v5, _, _, v8, output, _, v9⟩ := receive_video_fields data frame e r h
    have hl := lock_step_congr data r.1 v1 v2
    refine ⟨v2, v3, v4, hl.1, hl.2, fun _ => by rw [v5], ?_, ?_⟩
    · rw [v9]
      split_ifs <;> omega
    · intro h0
      rw [v8, if_neg h0]
  | audio frame ext =>
    obtain ⟨d1, d2, d3, d4, d5, _, _, d8, d9, d10⟩ := receive_audio_fields data frame ext r h
    exact ⟨d1, d2, d3, d8, d9, d10, by rw [d5], fun _ => d4⟩

/-- What a sequence of deliveries leaves unchanged, and what it preserves. -/
theorem run_fields :
    ∀ (evs : List delivery) (data : ffmpeg_data) (r : ffmpeg_data × List call),
      run data evs = Except.ok r →
      r.1.audio_planes = data.audio_planes ∧ r.1.audio_size = data.audio_size ∧
      r.1.frame_size = data.frame_size ∧
      (lock_step data → lock_step r.1) ∧ (inactive_empty data → inactive_empty r.1) ∧
      (0 ≤ data.frame_size → data.total_samples ≤ r.1.total_samples) ∧
      data.total_frames ≤ r.1.total_frames ∧
      (data.start_timestamp ≠ 0 → r.1.start_timestamp = data.start_timestamp) := by
  intro evs
  induction evs with
  | nil =>
    intro data r h
    have h' := Except.ok.inj h
    subst h'
    exact ⟨rfl, rfl, rfl, id, id, fun _ => le_refl _, le_refl _, fun _ => rfl⟩
  | cons ev rest ih =>
    intro data r h
    unfold run at h
    split at h
    · simp at h
    rename_i data1 c1 hd
    split at h
    · simp at h
    rename_i data2 c2 hr
    have h' := Except.ok.inj h
    subst h'
    obtain ⟨a1, a2, a3, a4, a5, a6, a7, a8⟩ := deliver_fields _ _ _ hd
    obtain ⟨b1, b2, b3, b4, b5, b6, b7, b8⟩ := ih _ _ hr
    simp only at a1 a2 a3 a4 a5 a6 a7 a8 b1 b2 b3 b4 b5 b6 b7 b8 ⊢
    refine ⟨by rw [b1, a1], by rw [b2, a2], by rw [b3, a3], fun hl => b4 (a4 hl),
      fun hl => b5 (a5 hl), ?_, le_trans a7 b7, ?_⟩
    · intro hfs
      have hfs1 : 0 ≤ data1.frame_size := by rw [a3]; exact hfs
      exact le_trans (a6 hfs) (b6 hfs1)
    · intro h0
      have h1 : data1.start_timestamp ≠ 0 := by rw [a8 h0]; exact h0
      rw [b8 h1, a8 h0]

theorem copy_rows_nonneg (fr pr b : Int) (src : Int → Nat) (n : Nat) (dst m : Int → Nat)
    (h : copy_rows fr pr b src (n + 1) dst = Except.ok m) : 0 ≤ b := by
  unfold copy_rows at h
  split at h
  · simp at h
  unfold copy_row at h
  split_ifs at h with h1 h2 h3
  omega

theorem copy_rows_content (fr pr b : Int) (src : Int → Nat) (hb : b ≤ pr) :
    ∀ (n : Nat) (dst m : Int → Nat), copy_rows fr pr b src n dst = Except.ok m →
      (∀ (y : Nat) (x : Int), y < n → 0 ≤ x → x < b →
        m ((y : Int) * pr + x) = src ((y : Int) * fr + x)) ∧
      (∀ a : Int, (∀ (y : Nat) (x : Int), y < n → 0 ≤ x → x < b → a ≠ (y : Int) * pr + x) →
        m a = dst a) := by
  intro n
  induction n with
  | zero =>
    intro dst m h
    have h' : dst = m := Except.ok.inj h
    subst h'
    exact ⟨fun y x hy => absurd hy (Nat.not_lt_zero y), fun a _ => rfl⟩
  | succ n ih =>
    intro dst m h
    have hb0 : 0 ≤ b := copy_rows_nonneg fr pr b src n dst m h
    have hpr : 0 ≤ pr := le_trans hb0 hb
    unfold copy_rows at h
    split at h
    · simp at h
    rename_i m0 h0
    obtain ⟨ihw, ihu⟩ := ih dst m0 h0
    unfold copy_row at h
    split_ifs at h with h1 h2 h3
    have hm : memcpy m0 ((n : Int) * pr) src ((n : Int) * fr) b.toNat = m := Except.ok.inj h
    have hbn : ((b.toNat : Nat) : Int) = b := Int.toNat_of_nonneg hb0
    constructor
    · intro y x hy hx0 hxb
      rw [← hm]
      unfold memcpy
      rw [hbn]
      rcases Nat.lt_succ_iff_lt_or_eq.mp hy with hlt | heq
      · have hstep : ((y : Int) + 1) * pr ≤ (n : Int) * pr := by
          apply mul_le_mul_of_nonneg_right _ hpr
          exact_mod_cast hlt
        have hexp : ((y : Int) + 1) * pr = (y : Int) * pr + pr := by ring
        have hnot : ¬ ((n : Int) * pr ≤ (y : Int) * pr + x ∧
            (y : Int) * pr + x < (n : Int) * pr + b) := by
          intro hc
          linarith [hc.1]
        rw [if_neg hnot]
        exact ihw y x hlt hx0 hxb
      · subst heq
        have hin : (y : Int) * pr ≤ (y : Int) * pr + x ∧
            (y : Int) * pr + x < (y : Int) * pr + b := ⟨by linarith, by linarith⟩
        rw [if_pos hin]
        congr 1
        ring
    · intro a ha
      rw [← hm]
      unfold memcpy
      rw [hbn]
      have hnot : ¬ ((n : Int) * pr ≤ a ∧ a < (n : Int) * pr + b) := by
        intro hc
        exact ha n (a - (n : Int) * pr) (Nat.lt_succ_self n) (by linarith [hc.1])
          (by linarith [hc.2]) (by ring)
      rw [if_neg hnot]
      exact ihu a (fun y x hy => ha y x (Nat.lt_succ_of_lt hy))

theorem copy_rows_reads (fr pr b : Int) (src src2 : Int → Nat) :
    ∀ (n : Nat) (dst : Int → Nat),
      (∀ (y : Nat) (x : Int), y < n → 0 ≤ x → x < b →
        src2 ((y : Int) * fr + x) = src ((y : Int) * fr + x)) →
      copy_rows fr pr b src2 n dst = copy_rows fr pr b src n dst := by
  intro n
  induction n with
  | zero =>
    intro dst _
    rfl
  | succ n ih =>
    intro dst hag
    unfold copy_rows
    rw [ih dst (fun y x hy => hag y x (Nat.lt_succ_of_lt hy))]
    cases copy_rows fr pr b src n dst with
    | error f => rfl
    | ok m =>
      simp only
      unfold copy_row
      split_ifs with h1 h2 h3
      all_goals try rfl
      · congr 1
        funext a
        unfold memcpy
        have hb0 : 0 ≤ b := by omega
        have hbn : ((b.toNat : Nat) : Int) = b := Int.toNat_of_nonneg hb0
        rw [hbn]
        split_ifs with hc
        · have := hag n (a - (n : Int) * pr) (Nat.lt_succ_self n) (by linarith [hc.1])
            (by linarith [hc.2])
          exact this
        · rfl

theorem copy_rows_defined (fr pr b : Int) (src : Int → Nat) (h0 : 0 ≤ fr) (h1 : 0 ≤ pr)
    (hb : 0 ≤ b) :
    ∀ (n : Nat) (dst : Int → Nat),
      (0 < n → ((n : Int) - 1) * fr ≤ INT_MAX ∧ ((n : Int) - 1) * pr ≤ INT_MAX) →
      ∃ m, copy_rows fr pr b src n dst = Except.ok m := by
  intro n
  induction n with
  | zero =>
    intro dst _
    exact ⟨dst, rfl⟩
  | succ n ih =>
    intro dst hmax
    obtain ⟨hf, hp⟩ := hmax (Nat.succ_pos n)
    have hcast : (((n + 1 : Nat) : Int) - 1) = (n : Int) := by push_cast; ring
    rw [hcast] at hf hp
    have hn0 : (0 : Int) ≤ (n : Int) := Int.ofNat_nonneg n
    have hprev : 0 < n → ((n : Int) - 1) * fr ≤ INT_MAX ∧ ((n : Int) - 1) * pr ≤ INT_MAX := by
      intro _
      have e1 : ((n : Int) - 1) * fr ≤ (n : Int) * fr :=
        mul_le_mul_of_nonneg_right (by linarith) h0
      have e2 : ((n : Int) - 1) * pr ≤ (n : Int) * pr :=
        mul_le_mul_of_nonneg_right (by linarith) h1
      exact ⟨le_trans e1 hf, le_trans e2 hp⟩
    obtain ⟨m0, hm0⟩ := ih dst hprev
    have i1 : in_int ((n : Int) * fr) := ⟨by
      have := mul_nonneg hn0 h0
      unfold INT_MIN
      linarith, hf⟩
    have i2 : in_int ((n : Int) * pr) := ⟨by
      have := mul_nonneg hn0 h1
      unfold INT_MIN
      linarith, hp⟩
    refine ⟨memcpy m0 ((n : Int) * pr) src ((n : Int) * fr) b.toNat, ?_⟩
    unfold copy_rows
    rw [hm0]
    simp only
    unfold copy_row
    rw [if_neg (not_not.mpr i1), if_neg (not_not.mpr i2), if_neg (not_lt.mpr hb)]

theorem copy_data_planes (pic : AVPicture) (frame : video_data) (height : Int) (pic' : AVPicture)
    (h : copy_data pic frame height = Except.ok pic') :
    pic'.linesize = pic.linesize ∧
    (∀ p, p < YUV420_PLANES → copy_plane pic frame height p = Except.ok (pic'.data p)) ∧
    (∀ p, YUV420_PLANES ≤ p → pic'.data p = pic.data p) := by
  unfold copy_data at h
  split at h
  · simp at h
  rename_i m0 h0
  split at h
  · simp at h
  rename_i m1 h1
  split at h
  · simp at h
  rename_i m2 h2
  have h' := Except.ok.inj h
  subst h'
  refine ⟨rfl, ?_, ?_⟩
  · intro p hp
    have hp' : p < 3 := hp
    interval_cases p
    · simpa using h0
    · simpa using h1
    · simpa using h2
  · intro p hp
    have hp' : 3 ≤ p := hp
    have e0 : p ≠ 0 := by omega
    have e1 : p ≠ 1 := by omega
    have e2 : p ≠ 2 := by omega
    simp [e0, e1, e2]

theorem copy_plane_reads (pic : AVPicture) (frame frame2 : video_data) (height : Int) (p : Nat)
    (hl : frame2.linesize = frame.linesize)
    (hag : ∀ y x : Int, 0 ≤ y → y < plane_height height p → 0 ≤ x →
      x < copy_bytes pic frame p →
      frame2.data p (y * frame_rowsize frame p + x) = frame.data p (y * frame_rowsize frame p + x)) :
    copy_plane pic frame2 height p = copy_plane pic frame height p := by
  have hr : frame_rowsize frame2 p = frame_rowsize frame p := by
    unfold frame_rowsize
    rw [hl]
  have hb : copy_bytes pic frame2 p = copy_bytes pic frame p := by
    unfold copy_bytes
    rw [hr]
  unfold copy_plane
  rw [hr, hb]
  apply copy_rows_reads
  intro y x hy hx0 hxb
  exact hag y x (Int.ofNat_nonneg y) (Int.lt_toNat.mp hy) hx0 hxb

theorem copy_bytes_le (pic : AVPicture) (frame : video_data) (p : Nat) :
    copy_bytes pic frame p ≤ pic.linesize p ∧
    copy_bytes pic frame p ≤ frame_rowsize frame p ∧
    copy_bytes pic frame p = min (frame_rowsize frame p) (pic.linesize p) := by
  unfold copy_bytes
  split_ifs with h
  · refine ⟨by omega, le_refl _, ?_⟩
    rw [min_eq_left (by omega)]
  · refine ⟨le_refl _, by omega, ?_⟩
    rw [min_eq_right (by omega)]

theorem copy_plane_defined (pic : AVPicture) (frame : video_data) (height : Int) (p : Nat)
    (hwf : 0 < plane_height height p →
      0 ≤ frame_rowsize frame p ∧ 0 ≤ pic.linesize p ∧
      (plane_height height p - 1) * frame_rowsize frame p ≤ INT_MAX ∧
      (plane_height height p - 1) * pic.linesize p ≤ INT_MAX) :
    ∃ m, copy_plane pic frame height p = Except.ok m := by
  unfold copy_plane
  by_cases hpos : 0 < plane_height height p
  · obtain ⟨h0, h1, h2, h3⟩ := hwf hpos
    have hb : 0 ≤ copy_bytes pic frame p := by
      rw [(copy_bytes_le pic frame p).2.2]
      exact le_min h0 h1
    apply copy_rows_defined _ _ _ _ h0 h1 hb
    intro _
    have hc : (((plane_height height p).toNat : Nat) : Int) = plane_height height p :=
      Int.toNat_of_nonneg (le_of_lt hpos)
    rw [hc]
    exact ⟨h2, h3⟩
  · have hz : (plane_height height p).toNat = 0 := Int.toNat_eq_zero.mpr (not_lt.mp hpos)
    rw [hz]
    exact ⟨_, rfl⟩

theorem ffmpeg_data_free_trace (data : ffmpeg_data) (r : ffmpeg_data × List call)
    (h : ffmpeg_data_free data = Except.ok r) :
    r.1 = ffmpeg_data.zero ∧
    r.2.count call.av_write_trailer = (if data.initialized = true then 1 else 0) ∧
    r.2.count call.avformat_free_context = 1 ∧
    r.2.count call.video_output_disconnect = 0 ∧
    r.2.count call.audio_output_disconnect = 0 ∧
    data.output.isSome = true := by
  rcases data with ⟨video, audio, acodec, vcodec, output, swscale, dst_picture, vframe,
    frame_size, total_frames, start_timestamp, audio_samplerate, audio_format, audio_planes,
    audio_size, excess_frames, samples, aframe, total_samples, filename_test, initialized⟩
  cases output with
  | none =>
    cases video <;> cases audio <;>
      simp [ffmpeg_data_free, close_video, close_audio] at h
  | some format =>
    rcases format with ⟨vc, ac, nofile, gh, raw⟩
    cases video <;> cases audio <;> cases initialized <;> cases nofile <;>
      simp [ffmpeg_data_free, close_video, close_audio] at h <;>
      subst h <;> simp

theorem ffmpeg_data_free_defined (data : ffmpeg_data) (h : data.output.isSome = true) :
    ∃ r, ffmpeg_data_free data = Except.ok r := by
  rcases data with ⟨video, audio, acodec, vcodec, output, swscale, dst_picture, vframe,
    frame_size, total_frames, start_timestamp, audio_samplerate, audio_format, audio_planes,
    audio_size, excess_frames, samples, aframe, total_samples, filename_test, initialized⟩
  cases output with
  | none => simp at h
  | some format =>
    cases video <;> cases audio <;> simp [ffmpeg_data_free, close_video, close_audio]

theorem init_keeps_refl (d : ffmpeg_data) : init_keeps d d := ⟨rfl, rfl, rfl, rfl, rfl, rfl⟩

theorem init_keeps_trans (a b c : ffmpeg_data) (h1 : init_keeps a b) (h2 : init_keeps b c) :
    init_keeps a c := by
  unfold init_keeps at h1 h2 ⊢
  rw [h2.1, h2.2.1, h2.2.2.1, h2.2.2.2.1, h2.2.2.2.2.1, h2.2.2.2.2.2]
  exact h1

theorem no_teardown_append (a b : List call) (ha : ∀ x ∈ a, teardown_call x = false)
    (hb : ∀ x ∈ b, teardown_call x = false) : ∀ x ∈ a ++ b, teardown_call x = false := by
  intro x hx
  rcases List.mem_append.mp hx with h | h
  · exact ha x h
  · exact hb x h

theorem new_stream_keeps (data : ffmpeg_data) (k : stream_kind) (found created : Bool)
    (r : Bool × ffmpeg_data × List call) (h : new_stream data k found created = Except.ok r) :
    init_keeps data r.2.1 ∧ (∀ x ∈ r.2.2, teardown_call x = false) := by
  cases found <;> cases created <;> cases k <;>
    simp only [new_stream, set_codec, set_stream, if_true, if_false, Bool.true_eq_false,
      Bool.false_eq_true] at h
  all_goals first
    | (have h' := Except.ok.inj h
       subst h'
       exact ⟨⟨rfl, rfl, rfl, rfl, rfl, rfl⟩, by simp [teardown_call]⟩)
    | (split at h
       · simp at h
       · have h' := Except.ok.inj h
         subst h'
         exact ⟨⟨rfl, rfl, rfl, rfl, rfl, rfl⟩, by simp [teardown_call]⟩)

theorem open_video_codec_keeps (data : ffmpeg_data) (env : init_env)
    (r : Bool × ffmpeg_data × List call) (h : open_video_codec data env = Except.ok r) :
    init_keeps data r.2.1 ∧ (∀ x ∈ r.2.2, teardown_call x = false) := by
  unfold open_video_codec at h
  split at h
  · simp at h
  split_ifs at h with h1 h2 h3
  all_goals
    have h' := Except.ok.inj h
    subst h'
    exact ⟨⟨rfl, rfl, rfl, rfl, rfl, rfl⟩, by simp [teardown_call]⟩

theorem open_audio_codec_keeps (data : ffmpeg_data) (env : init_env)
    (r : Bool × ffmpeg_data × List call) (h : open_audio_codec data env = Except.ok r) :
    init_keeps data r.2.1 ∧ (∀ x ∈ r.2.2, teardown_call x = false) := by
  unfold open_audio_codec at h
  split at h
  · simp at h
  split_ifs at h with h1 h2 h3
  all_goals
    have h' := Except.ok.inj h
    subst h'
    exact ⟨⟨rfl, rfl, rfl, rfl, rfl, rfl⟩, by simp [teardown_call]⟩

theorem create_video_stream_keeps (data : ffmpeg_data) (env : init_env)
    (r : Bool × ffmpeg_data × List call) (h : create_video_stream data env = Except.ok r) :
    init_keeps data r.2.1 ∧ (∀ x ∈ r.2.2, teardown_call x = false) := by
  unfold create_video_stream at h
  split_ifs at h with h1
  · have h' := Except.ok.inj h
    subst h'
    exact ⟨init_keeps_refl _, by simp⟩
  split at h
  · simp at h
  split at h
  · simp at h
  · rename_i data1 c1 hn
    have h' := Except.ok.inj h
    subst h'
    exact new_stream_keeps _ _ _ _ _ hn
  rename_i data1 c1 hn
  obtain ⟨k1, t1⟩ := new_stream_keeps _ _ _ _ _ hn
  split at h
  · simp at h
  rename_i video hv
  dsimp only at h
  split at h
  · simp at h
  · rename_i data2 c2 ho
    have h' := Except.ok.inj h
    subst h'
    obtain ⟨k2, t2⟩ := open_video_codec_keeps _ _ _ ho
    exact ⟨init_keeps_trans _ _ _ k1 (init_keeps_trans _ _ _ ⟨rfl, rfl, rfl, rfl, rfl, rfl⟩ k2),
      no_teardown_append _ _ t1 t2⟩
  rename_i data2 c2 ho
  obtain ⟨k2, t2⟩ := open_video_codec_keeps _ _ _ ho
  have k12 : init_keeps data data2 :=
    init_keeps_trans _ _ _ k1 (init_keeps_trans _ _ _ ⟨rfl, rfl, rfl, rfl, rfl, rfl⟩ k2)
  split at h
  · simp at h
  split_ifs at h with hp
  · unfold init_swscale at h
    split at h
    all_goals
      rename_i heq
      have e1 := (Prod.mk.inj heq).2
      have e2 := (Prod.mk.inj e1).1
      have e3 := (Prod.mk.inj e1).2
      have h' := Except.ok.inj h
      subst h' e2 e3
      exact ⟨init_keeps_trans _ _ _ k12 ⟨rfl, rfl, rfl, rfl, rfl, rfl⟩,
        no_teardown_append _ _ (no_teardown_append _ _ t1 t2) (by simp [teardown_call])⟩
  · have h' := Except.ok.inj h
    subst h'
    exact ⟨k12, no_teardown_append _ _ t1 t2⟩

theorem create_audio_stream_keeps (data : ffmpeg_data) (env : init_env)
    (r : Bool × ffmpeg_data × List call) (h : create_audio_stream data env = Except.ok r) :
    init_keeps data r.2.1 ∧ (∀ x ∈ r.2.2, teardown_call x = false) := by
  unfold create_audio_stream at h
  split_ifs at h with h1
  · have h' := Except.ok.inj h
    subst h'
    exact ⟨init_keeps_refl _, by simp⟩
  split at h
  · simp at h
  split at h
  · simp at h
  · rename_i data1 c1 hn
    have h' := Except.ok.inj h
    subst h'
    exact new_stream_keeps _ _ _ _ _ hn
  rename_i data1 c1 hn
  obtain ⟨k1, t1⟩ := new_stream_keeps _ _ _ _ _ hn
  split at h
  · simp at h
  dsimp only at h
  split at h
  · simp at h
  rename_i b data3 c2 ho
  have h' := Except.ok.inj h
  subst h'
  obtain ⟨k2, t2⟩ := open_audio_codec_keeps _ _ _ ho
  exact ⟨init_keeps_trans _ _ _ k1 (init_keeps_trans _ _ _ ⟨rfl, rfl, rfl, rfl, rfl, rfl⟩ k2),
    no_teardown_append _ _ t1 t2⟩

theorem init_streams_keeps (data : ffmpeg_data) (env : init_env)
    (r : Bool × ffmpeg_data × List call) (h : init_streams data env = Except.ok r) :
    init_keeps data r.2.1 ∧ (∀ x ∈ r.2.2, teardown_call x = false) := by
  unfold init_streams at h
  split at h
  · simp at h
  rename_i format hf
  have hv : ∀ rv, (if format.video_codec ≠ AV_CODEC_ID_NONE then create_video_stream data env
      else Except.ok (true, data, [])) = Except.ok rv →
      init_keeps data rv.2.1 ∧ (∀ x ∈ rv.2.2, teardown_call x = false) := by
    intro rv hrv
    split_ifs at hrv with hc
    · exact create_video_stream_keeps _ _ _ hrv
    · have h' := Except.ok.inj hrv
      subst h'
      exact ⟨init_keeps_refl _, by simp⟩
  split at h
  · simp at h
  · rename_i data1 c1 hr
    have h' := Except.ok.inj h
    subst h'
    exact hv _ hr
  rename_i data1 c1 hr
  obtain ⟨k1, t1⟩ := hv _ hr
  split_ifs at h with ha
  · split at h
    · simp at h
    rename_i b data2 c2 hc
    have h' := Except.ok.inj h
    subst h'
    obtain ⟨k2, t2⟩ := create_audio_stream_keeps _ _ _ hc
    exact ⟨init_keeps_trans _ _ _ k1 k2, no_teardown_append _ _ t1 t2⟩
  · have h' := Except.ok.inj h
    subst h'
    exact ⟨k1, t1⟩

theorem open_output_file_keeps (data : ffmpeg_data) (env : init_env)
    (r : Bool × ffmpeg_data × List call) (h : open_output_file data env = Except.ok r) :
    r.2.1 = data ∧ (∀ x ∈ r.2.2, teardown_call x = false) := by
  unfold open_output_file at h
  split at h
  · simp at h
  rename_i format hf
  dsimp only at h
  split_ifs at h with h1 h2 h3 h4 h5
  all_goals
    have h' := Except.ok.inj h
    subst h'
    exact ⟨rfl, by simp [teardown_call]⟩

theorem init_fail_trace (data : ffmpeg_data) (c : List call) (r : Bool × ffmpeg_data × List call)
    (hi : data.initialized = false) (hc : ∀ x ∈ c, teardown_call x = false)
    (h : init_fail data c = Except.ok r) :
    r.1 = false ∧ r.2.1 = ffmpeg_data.zero ∧ r.2.2.count call.av_write_trailer = 0 ∧
    r.2.2.count call.avformat_free_context = 1 := by
  unfold init_fail at h
  split at h
  · simp at h
  rename_i data1 c1 hfree
  have h' := Except.ok.inj h
  subst h'
  obtain ⟨f1, f2, f3, _⟩ := ffmpeg_data_free_trace data _ hfree
  rw [hi] at f2
  have z1 : c.count call.av_write_trailer = 0 := by
    rw [List.count_eq_zero]
    intro hmem
    have := hc _ hmem
    simp [teardown_call] at this
  have z2 : c.count call.avformat_free_context = 0 := by
    rw [List.count_eq_zero]
    intro hmem
    have := hc _ hmem
    simp [teardown_call] at this
  have f2' : List.count call.av_write_trailer c1 = 0 := by simpa using f2
  have f3' : List.count call.avformat_free_context c1 = 1 := f3
  refine ⟨rfl, f1, ?_, ?_⟩
  · simp only [List.count_append]
    omega
  · simp only [List.count_append]
    omega

theorem ffmpeg_data_init_result (data : ffmpeg_data) (name : String) (env : init_env)
    (fmt : AVFormatContext) (h_name : name.isEmpty = false) (h_mutex : env.mutex_init_ret = 0)
    (h_alloc : env.alloc_output = some fmt) (r : Bool × ffmpeg_data × List call)
    (h : ffmpeg_data_init data (some name) env = Except.ok r) :
    (r.1 = false →
      r.2.1 = ffmpeg_data.zero ∧ r.2.2.count call.av_write_trailer = 0 ∧
      r.2.2.count call.avformat_free_context = 1) ∧
    (r.1 = true →
      r.2.1.initialized = true ∧ r.2.1.start_timestamp = 0 ∧ r.2.1.total_samples = 0 ∧
      r.2.1.total_frames = 0 ∧ (∀ i, (r.2.1.excess_frames i).size = 0) ∧
      (∀ x ∈ r.2.2, teardown_call x = false) ∧ r.2.1.output.isSome = true) := by
  unfold ffmpeg_data_init at h
  simp only [h_name, h_mutex, h_alloc, ne_eq, not_true_eq_false, if_false, Option.isNone_some,
    Bool.false_eq_true] at h
  have hbase : ∀ x ∈ [call.pthread_mutex_init] ++ [call.avformat_alloc_output_context2],
      teardown_call x = false := by simp [teardown_call]
  split at h
  · simp at h
  · rename_i data2 c2 hs
    obtain ⟨k, t⟩ := init_streams_keeps _ _ _ hs
    have hi : data2.initialized = false := k.2.1
    obtain ⟨f1, f2, f3, f4⟩ := init_fail_trace data2 _ r hi (no_teardown_append _ _ hbase t) h
    exact ⟨fun _ => ⟨f2, f3, f4⟩, fun ht => by rw [f1] at ht; simp at ht⟩
  · rename_i data2 c2 hs
    obtain ⟨k, t⟩ := init_streams_keeps _ _ _ hs
    split at h
    · simp at h
    · rename_i data3 c3 ho
      obtain ⟨o1, o2⟩ := open_output_file_keeps _ _ _ ho
      have o1' : data3 = data2 := o1
      have hi : data3.initialized = false := by rw [o1']; exact k.2.1
      obtain ⟨f1, f2, f3, f4⟩ := init_fail_trace data3 _ r hi
        (no_teardown_append _ _ (no_teardown_append _ _ hbase t) o2) h
      exact ⟨fun _ => ⟨f2, f3, f4⟩, fun ht => by rw [f1] at ht; simp at ht⟩
    · rename_i data3 c3 ho
      obtain ⟨o1, o2⟩ := open_output_file_keeps _ _ _ ho
      have o1' : data3 = data2 := o1
      have h' := Except.ok.inj h
      subst h'
      obtain ⟨k1, _, k3, k4, k5, k6⟩ := k
      refine ⟨fun hf => by simp at hf, fun _ => ⟨rfl, ?_, ?_, ?_, ?_, ?_, ?_⟩⟩
      · show data3.start_timestamp = 0
        rw [o1', k3]
        rfl
      · show data3.total_samples = 0
        rw [o1', k4]
        rfl
      · show data3.total_frames = 0
        rw [o1', k5]
        rfl
      · intro i
        show (data3.excess_frames i).size = 0
        rw [o1', k6]
        rfl
      · exact no_teardown_append _ _ (no_teardown_append _ _ hbase t) o2
      · show data3.output.isSome = true
        rw [o1', k1]
        rfl

theorem encode_audio_never_diverges (output : ffmpeg_data) (e : audio_ext) :
    encode_audio output e ≠ Except.error fault.diverges := by
  unfold encode_audio
  split_ifs <;> first | (simp; done) | (split <;> simp)

/-- With a positive frame size in bytes and at least one active plane, a bound above the
size of plane 0 is never used up: the loop exits. -/
theorem drain_loop_exits (ext : Nat → audio_ext) :
    ∀ (fuel : Nat) (data : ffmpeg_data) (k : Nat), 0 < frame_size_bytes data →
      0 < data.audio_planes → (data.excess_frames 0).size < fuel →
      drain_loop fuel data ext k ≠ Except.error fault.diverges := by
  intro fuel
  induction fuel with
  | zero =>
    intro data k _ _ h
    omega
  | succ n ih =>
    intro data k hf hp hs
    unfold drain_loop
    split_ifs with hc
    · cases he : encode_audio (pop_planes data) (ext k) with
      | error f =>
        intro hcontra
        have hf' : f = fault.diverges := by simpa using hcontra
        exact encode_audio_never_diverges _ _ (by rw [he, hf'])
      | ok p =>
        obtain ⟨data1, c⟩ := p
        obtain ⟨e1, e2, e3, e4, _⟩ := encode_audio_fields _ _ _ he
        have e1' : data1.excess_frames = (pop_planes data).excess_frames := e1
        have e2' : data1.audio_planes = data.audio_planes := e2
        have e3' : data1.audio_size = data.audio_size := e3
        have e4' : data1.frame_size = data.frame_size := e4
        have hfsb : frame_size_bytes data1 = frame_size_bytes data := by
          unfold frame_size_bytes
          rw [e3', e4']
        have hsz : (data1.excess_frames 0).size < n := by
          rw [e1', pop_planes_size, if_pos hp]
          omega
        have hrec := ih data1 (k + 1) (by rw [hfsb]; exact hf) (by rw [e2']; exact hp) hsz
        simp only
        cases hd : drain_loop n data1 ext (k + 1) with
        | error f =>
          intro hcontra
          have hf' : f = fault.diverges := by simpa using hcontra
          exact hrec (by rw [hd, hf'])
        | ok q => simp
    · simp

/-- A run of the loop that returns is not changed by a larger bound. -/
theorem drain_loop_fuel_mono (ext : Nat → audio_ext) :
    ∀ (fuel : Nat) (data : ffmpeg_data) (k : Nat) (r : ffmpeg_data × List call),
      drain_loop fuel data ext k = Except.ok r → drain_loop (fuel + 1) data ext k = Except.ok r := by
  intro fuel
  induction fuel with
  | zero =>
    intro data k r h
    simp [drain_loop] at h
  | succ n ih =>
    intro data k r h
    unfold drain_loop at h ⊢
    split_ifs at h ⊢ with hc
    · cases he : encode_audio (pop_planes data) (ext k) with
      | error f => simp [he] at h
      | ok p =>
        obtain ⟨data1, c⟩ := p
        simp only [he] at h ⊢
        cases hd : drain_loop n data1 ext (k + 1) with
        | error f => simp [hd] at h
        | ok q =>
          obtain ⟨data2, cs⟩ := q
          simp only [hd] at h
          rw [ih data1 (k + 1) (data2, cs) hd]
          exact h
    · exact h

/-- When the condition holds and an iteration cannot change it (`frame_size_bytes` is
zero, or no plane is active), the loop returns for no bound. -/
theorem drain_loop_never_exits (ext : Nat → audio_ext) :
    ∀ (fuel : Nat) (data : ffmpeg_data) (k : Nat) (r : ffmpeg_data × List call),
      frame_size_bytes data = 0 ∨ data.audio_planes = 0 →
      frame_size_bytes data ≤ (data.excess_frames 0).size →
      drain_loop fuel data ext k ≠ Except.ok r := by
  intro fuel
  induction fuel with
  | zero =>
    intro data k r _ _
    simp [drain_loop]
  | succ n ih =>
    intro data k r hz hc
    unfold drain_loop
    rw [if_pos hc]
    cases he : encode_audio (pop_planes data) (ext k) with
    | error f => simp
    | ok p =>
      obtain ⟨data1, c⟩ := p
      obtain ⟨e1, e2, e3, e4, _⟩ := encode_audio_fields _ _ _ he
      have e1' : data1.excess_frames = (pop_planes data).excess_frames := e1
      have e2' : data1.audio_planes = data.audio_planes := e2
      have e3' : data1.audio_size = data.audio_size := e3
      have e4' : data1.frame_size = data.frame_size := e4
      have hfsb : frame_size_bytes data1 = frame_size_bytes data := by
        unfold frame_size_bytes
        rw [e3', e4']
      have hsz : (data1.excess_frames 0).size = (data.excess_frames 0).size := by
        rw [e1', pop_planes_size]
        rcases hz with h0 | h0
        · rw [h0]
          split_ifs <;> omega
        · rw [if_neg (by omega)]
      have hrec : ∀ q, drain_loop n data1 ext (k + 1) ≠ Except.ok q := fun q =>
        ih data1 (k + 1) q (by rw [hfsb, e2']; exact hz) (by rw [hfsb, hsz]; exact hc)
      simp only
      cases hd : drain_loop n data1 ext (k + 1) with
      | error f => simp
      | ok q => exact absurd hd (hrec q)

theorem ffmpeg_data_init_null_output (data : ffmpeg_data) (name : String) (env : init_env)
    (h_name : name.isEmpty = false) (h_mutex : env.mutex_init_ret = 0)
    (h_alloc : env.alloc_output = none) :
    ffmpeg_data_init data (some name) env = Except.error fault.null_deref := by
  unfold ffmpeg_data_init
  simp only [h_name, h_mutex, h_alloc, ne_eq, not_true_eq_false, if_false,
    Option.isNone_none, if_true, Bool.false_eq_true]
  rfl

/-- A successful `ffmpeg_data_init` leaves `start_timestamp` unset, the counters at zero
and the excess-sample buffers empty. -/
theorem ffmpeg_data_init_fresh (data0 : ffmpeg_data) (filename : Option String) (env : init_env)
    (data : ffmpeg_data) (c : List call)
    (h : ffmpeg_data_init data0 filename env = Except.ok (true, data, c)) :
    data.initialized = true ∧ data.start_timestamp = 0 ∧ data.total_samples = 0 ∧
    data.total_frames = 0 ∧ (∀ i, (data.excess_frames i).size = 0) := by
  cases filename with
  | none => simp [ffmpeg_data_init] at h
  | some name =>
    by_cases h_name : name.isEmpty = true
    · simp [ffmpeg_data_init, h_name] at h
    by_cases h_mutex : env.mutex_init_ret = 0
    · cases h_alloc : env.alloc_output with
      | none =>
        have hbug := (ffmpeg_data_init_null_output data0 name env
          (by simpa using h_name) h_mutex h_alloc)
        rw [hbug] at h
        simp at h
      | some fmt =>
        obtain ⟨_, ht⟩ := ffmpeg_data_init_result data0 name env fmt (by simpa using h_name)
          h_mutex h_alloc _ h
        obtain ⟨t1, t2, t3, t4, t5, _, _⟩ := ht rfl
        exact ⟨t1, t2, t3, t4, t5⟩
    · simp [ffmpeg_data_init, h_name, h_mutex] at h

theorem encode_audio_context (output : ffmpeg_data) (e : audio_ext) (r : ffmpeg_data × List call)
    (h : encode_audio output e = Except.ok r) :
    r.1.output = output.output ∧ r.1.initialized = output.initialized := by
  unfold encode_audio at h
  split_ifs at h with h1 h2 h3 h4 h5
  all_goals first
    | (simp at h; done)
    | (simp at h; subst h; simp [*])
    | (split at h <;> first | (simp at h; done) | (simp at h; subst h; simp [*]))

theorem drain_loop_context (ext : Nat → audio_ext) :
    ∀ (fuel : Nat) (data : ffmpeg_data) (k : Nat) (r : ffmpeg_data × List call),
      drain_loop fuel data ext k = Except.ok r →
      r.1.output = data.output ∧ r.1.initialized = data.initialized := by
  intro fuel
  induction fuel with
  | zero =>
    intro data k r h
    simp [drain_loop] at h
  | succ n ih =>
    intro data k r h
    unfold drain_loop at h
    split_ifs at h with hc
    · split at h
      · simp at h
      rename_i data1 c he
      split at h
      · simp at h
      rename_i data2 cs hd
      have h' := Except.ok.inj h
      subst h'
      obtain ⟨e1, e2⟩ := encode_audio_context _ _ _ he
      obtain ⟨d1, d2⟩ := ih _ _ _ hd
      exact ⟨d1.trans e1, d2.trans e2⟩
    · have h' := Except.ok.inj h
      subst h'
      exact ⟨rfl, rfl⟩

theorem deliver_context (data : ffmpeg_data) (ev : delivery) (r : ffmpeg_data × List call)
    (h : deliver data ev = Except.ok r) :
    r.1.output = data.output ∧ r.1.initialized = data.initialized := by
  cases ev with
  | video frame e =>
    replace h : receive_video data frame e = Except.ok r := h
    unfold receive_video at h
    rw [set_start_timestamp_fields] at h
    split at h
    · simp at h
    dsimp only at h
    split at h
    · simp at h
    obtain ⟨output, ho, hr⟩ := encode_video_fields _ _ _ _ h
    rw [hr]
    exact ⟨rfl, rfl⟩
  | audio frame ext =>
    replace h : receive_audio data frame ext = Except.ok r := h
    unfold receive_audio at h
    split at h
    · simp at h
    split_ifs at h with h0
    · have h' := Except.ok.inj h
      subst h'
      exact ⟨rfl, rfl⟩
    split at h
    · simp at h
    · have h' := Except.ok.inj h
      subst h'
      exact ⟨rfl, rfl⟩
    · rename_i inp _
      exact drain_loop_context ext _ (push_planes data inp) _ _ h

theorem run_context :
    ∀ (evs : List delivery) (data : ffmpeg_data) (r : ffmpeg_data × List call),
      run data evs = Except.ok r →
      r.1.output = data.output ∧ r.1.initialized = data.initialized := by
  intro evs
  induction evs with
  | nil =>
    intro data r h
    have h' := Except.ok.inj h
    subst h'
    exact ⟨rfl, rfl⟩
  | cons ev rest ih =>
    intro data r h
    unfold run at h
    split at h
    · simp at h
    rename_i data1 c1 hd
    split at h
    · simp at h
    rename_i data2 c2 hr
    have h' := Except.ok.inj h
    subst h'
    obtain ⟨a1, a2⟩ := deliver_context _ _ _ hd
    obtain ⟨b1, b2⟩ := ih _ _ hr
    exact ⟨b1.trans a1, b2.trans a2⟩

theorem ffmpeg_output_start_active (output : ffmpeg_output) (host : host_env)
    (o : ffmpeg_output) (c : List call)
    (h : ffmpeg_output_start output host = Except.ok (true, o, c)) :
    o.active = true ∧ o.ff_data.output.isSome = true ∧ o.ff_data.initialized = true := by
  unfold ffmpeg_output_start at h
  split_ifs at h with h1
  · simp at h
  split at h
  · simp at h
  rename_i name hn
  split_ifs at h with h2
  · simp at h
  split at h
  · simp at h
  · simp at h
  rename_i d ci hi
  have h' := Except.ok.inj h
  have e1 := (Prod.mk.inj (Prod.mk.inj h').2).1
  subst e1
  rw [hn] at hi
  by_cases h_mutex : host.init.mutex_init_ret = 0
  · cases h_alloc : host.init.alloc_output with
    | none =>
      rw [ffmpeg_data_init_null_output _ name host.init (by simpa using h2) h_mutex
        h_alloc] at hi
      simp at hi
    | some fmt =>
      obtain ⟨_, ht⟩ := ffmpeg_data_init_result _ name host.init fmt (by simpa using h2)
        h_mutex h_alloc _ hi
      obtain ⟨t1, _, _, _, _, _, t7⟩ := ht rfl
      exact ⟨rfl, t7, t1⟩
  · simp [ffmpeg_data_init, h2, h_mutex] at hi

theorem fill_planes_append (a b : List call) :
    fill_planes (a ++ b) = fill_planes a ++ fill_planes b := by
  induction a with
  | nil => rfl
  | cons x rest ih =>
    cases x <;> simp [fill_planes, ih]

/-- With the audio frame and the audio stream present and room for one more frame in the
sample counter, `encode_audio` returns: it hands the sample buffers to
`avcodec_fill_audio_frame` once and changes nothing but `total_samples`. -/
theorem encode_audio_runs (output : ffmpeg_data) (e : audio_ext)
    (h_aframe : output.aframe = true) (h_audio : output.audio.isSome = true)
    (h_int : in_int (output.total_samples + output.frame_size)) :
    ∃ r, encode_audio output e = Except.ok r ∧
      r.1 = { output with total_samples :=
        if e.fill_ret < 0 then output.total_samples
        else output.total_samples + output.frame_size } ∧
      fill_planes r.2 = [sample_planes output] := by
  rcases output with ⟨video, audio, acodec, vcodec, octx, swscale, dst_picture, vframe,
    frame_size, total_frames, start_timestamp, audio_samplerate, audio_format, audio_planes,
    audio_size, excess_frames, samples, aframe, total_samples, filename_test, initialized⟩
  simp only at h_aframe h_audio h_int
  subst h_aframe
  obtain ⟨a, ha⟩ := Option.isSome_iff_exists.mp h_audio
  subst ha
  unfold encode_audio
  simp only [Bool.true_eq_false, if_false, h_int, not_true_eq_false]
  by_cases h1 : e.fill_ret < 0
  · simp only [h1, if_true]
    exact ⟨_, rfl, rfl, rfl⟩
  · simp only [h1, if_false]
    by_cases h2 : e.encode_ret < 0
    · simp only [h2, if_true]
      exact ⟨_, rfl, rfl, rfl⟩
    · simp only [h2, if_false]
      by_cases h3 : e.got_packet = 0
      · simp only [h3, if_true]
        exact ⟨_, rfl, rfl, rfl⟩
      · simp only [h3, if_false]
        exact ⟨_, rfl, rfl, rfl⟩

theorem in_int_between (a f : Int) (n j : Nat) (h0 : in_int a)
    (hn : in_int (a + (n : Int) * f)) (hj : j ≤ n) : in_int (a + (j : Int) * f) := by
  unfold in_int INT_MIN INT_MAX at *
  have hj' : (j : Int) ≤ (n : Int) := by exact_mod_cast hj
  have hj0 : (0 : Int) ≤ (j : Int) := Int.ofNat_nonneg j
  rcases le_total 0 f with hf | hf
  · have h1 : (j : Int) * f ≤ (n : Int) * f := mul_le_mul_of_nonneg_right hj' hf
    have h2 : 0 ≤ (j : Int) * f := mul_nonneg hj0 hf
    constructor <;> linarith [h0.1, h0.2, hn.1, hn.2]
  · have h1 : (n : Int) * f ≤ (j : Int) * f := mul_le_mul_of_nonpos_right hj' hf
    have h2 : (j : Int) * f ≤ 0 := mul_nonpos_of_nonneg_of_nonpos hj0 hf
    constructor <;> linarith [h0.1, h0.2, hn.1, hn.2]

theorem frame_size_bytes_exact (data : ffmpeg_data) (h0 : 0 ≤ data.frame_size)
    (hlt : data.frame_size.toNat * data.audio_size < u64) :
    frame_size_bytes data = data.frame_size.toNat * data.audio_size := by
  unfold frame_size_bytes to_size_t
  rcases Nat.eq_zero_or_pos data.audio_size with hz | hp
  · rw [hz]
    simp
  · have hle : data.frame_size.toNat ≤ data.frame_size.toNat * data.audio_size :=
      Nat.le_mul_of_pos_right _ hp
    have hnat : data.frame_size.toNat < u64 := by omega
    have hcast : data.frame_size < (u64 : Int) := by
      have := Int.toNat_of_nonneg h0
      omega
    rw [Int.emod_eq_of_lt h0 hcast, Nat.mod_eq_of_lt hlt]

theorem frame_chunk_length (fsb planes : Nat) (stream : Nat → List Nat) (L j : Nat)
    (hlen : ∀ i, i < planes → (stream i).length = L) (hj : j < L / fsb) :
    ∀ ps, ps ∈ frame_chunk fsb planes stream j → ps.length = fsb := by
  intro ps hps
  unfold frame_chunk at hps
  obtain ⟨i, hi, hps'⟩ := List.mem_map.mp hps
  rw [← hps', List.length_take, List.length_drop, hlen i (List.mem_range.mp hi)]
  have h1 : (j + 1) * fsb ≤ L / fsb * fsb := Nat.mul_le_mul_right _ hj
  have h2 := Nat.div_mul_le_self L fsb
  have h3 : (j + 1) * fsb = j * fsb + fsb := by ring
  omega

theorem frame_chunk_shift (fsb planes : Nat) (s s' : Nat → List Nat)
    (h : ∀ i, i < planes → s' i = (s i).drop fsb) (j : Nat) :
    frame_chunk fsb planes s' j = frame_chunk fsb planes s (j + 1) := by
  unfold frame_chunk
  apply List.map_congr_left
  intro i hi
  rw [h i (List.mem_range.mp hi), List.drop_drop]
  congr 2
  ring

theorem frame_chunk_zero (data : ffmpeg_data) (T : Nat)
    (hS : ∀ i, i < data.audio_planes → (data.excess_frames i).size = T)
    (hc : frame_size_bytes data ≤ T) :
    (sample_planes (pop_planes data)).map (List.take (frame_size_bytes data))
      = frame_chunk (frame_size_bytes data) data.audio_planes
          (fun i => (data.excess_frames i).bytes) 0 := by
  unfold sample_planes frame_chunk
  rw [List.map_map]
  apply List.map_congr_left
  intro i hi
  have hi' : i < data.audio_planes := List.mem_range.mp hi
  have hlen : (data.excess_frames i).bytes.length = T := hS i hi'
  have hpl : (pop_planes data).audio_planes = data.audio_planes := rfl
  simp only [Function.comp, pop_planes, hi', if_true, circlebuf_pop_front, overwrite,
    Nat.zero_mul, List.drop_zero]
  rw [List.take_append_of_le_length (by rw [List.length_take, hlen]; omega)]
  rw [List.take_take, Nat.min_self]

/-- The drain loop started with `T` bytes in every active plane: it returns after
`T / frame_size_bytes` runs of `encode_audio`, each on the next `frame_size_bytes` bytes
of every active plane, and leaves the bytes that follow them. -/
theorem drain_loop_spec (ext : Nat → audio_ext) :
    ∀ (fuel : Nat) (data : ffmpeg_data) (k T : Nat),
      0 < frame_size_bytes data → 0 < data.audio_planes → data.aframe = true →
      data.audio.isSome = true →
      (∀ i, i < data.audio_planes → (data.excess_frames i).size = T) → T < fuel →
      (∀ j : Nat, j ≤ T / frame_size_bytes data →
        in_int (data.total_samples + (j : Int) * data.frame_size)) →
      ∃ r, drain_loop fuel data ext k = Except.ok r ∧
        (fill_planes r.2).map (fun ps => ps.map (List.take (frame_size_bytes data)))
          = (List.range (T / frame_size_bytes data)).map
              (frame_chunk (frame_size_bytes data) data.audio_planes
                (fun i => (data.excess_frames i).bytes)) ∧
        (∀ i, i < data.audio_planes →
          (r.1.excess_frames i).bytes
            = (data.excess_frames i).bytes.drop
                (T / frame_size_bytes data * frame_size_bytes data)) ∧
        (∀ i, data.audio_planes ≤ i → r.1.excess_frames i = data.excess_frames i) := by
  intro fuel
  induction fuel with
  | zero =>
    intro data k T _ _ _ _ _ hT
    omega
  | succ n ih =>
    intro data k T hf hp ha hau hS hT hint
    have h0 : (data.excess_frames 0).size = T := hS 0 hp
    unfold drain_loop
    by_cases hc : frame_size_bytes data ≤ T
    · rw [if_pos (by rw [h0]; exact hc)]
      have hone : 1 ≤ T / frame_size_bytes data := Nat.div_pos hc hf
      have hi1 : in_int ((pop_planes data).total_samples + (pop_planes data).frame_size) := by
        have h1 := hint 1 hone
        simpa using h1
      obtain ⟨r1, he, hr1, hfill⟩ := encode_audio_runs (pop_planes data) (ext k) ha hau hi1
      obtain ⟨d1, c⟩ := r1
      simp only at hr1 hfill
      rw [he]
      simp only
      have e_ex : d1.excess_frames = (pop_planes data).excess_frames := by rw [hr1]
      have e_pl : d1.audio_planes = data.audio_planes := by rw [hr1]; rfl
      have e_fsb : frame_size_bytes d1 = frame_size_bytes data := by rw [hr1]; rfl
      have e_af : d1.aframe = true := by rw [hr1]; exact ha
      have e_au : d1.audio.isSome = true := by rw [hr1]; exact hau
      have e_fs : d1.frame_size = data.frame_size := by rw [hr1]; rfl
      have e_ts : d1.total_samples = data.total_samples ∨
          d1.total_samples = data.total_samples + data.frame_size := by
        rw [hr1]
        by_cases hfr : (ext k).fill_ret < 0
        · left
          simp only [hfr, if_true]
          rfl
        · right
          simp only [hfr, if_false]
          rfl
      have hdiv : T / frame_size_bytes data = (T - frame_size_bytes data) / frame_size_bytes data + 1 :=
        Nat.div_eq_sub_div hf hc
      have hS1 : ∀ i, i < d1.audio_planes →
          (d1.excess_frames i).size = T - frame_size_bytes data := by
        intro i hi
        rw [e_pl] at hi
        rw [e_ex, pop_planes_size, if_pos hi, hS i hi]
      have hint1 : ∀ j : Nat, j ≤ (T - frame_size_bytes data) / frame_size_bytes d1 →
          in_int (d1.total_samples + (j : Int) * d1.frame_size) := by
        intro j hj
        rw [e_fsb] at hj
        rw [e_fs]
        rcases e_ts with h | h
        · rw [h]
          exact hint j (by omega)
        · rw [h]
          have := hint (j + 1) (by omega)
          have hcast : data.total_samples + data.frame_size + (j : Int) * data.frame_size
              = data.total_samples + ((j + 1 : Nat) : Int) * data.frame_size := by
            push_cast
            ring
          rw [hcast]
          exact this
      obtain ⟨r2, hd, hmap, hbytes, hother⟩ := ih d1 (k + 1) (T - frame_size_bytes data)
        (by rw [e_fsb]; exact hf) (by rw [e_pl]; exact hp) e_af e_au hS1 (by omega) hint1
      obtain ⟨d2, cs⟩ := r2
      rw [hd]
      simp only at hmap hbytes hother ⊢
      rw [e_fsb, e_pl] at hmap
      rw [e_fsb] at hbytes
      refine ⟨(d2, c ++ cs), rfl, ?_, ?_, ?_⟩
      · simp only
        rw [fill_planes_append, hfill, hdiv, List.range_succ_eq_map]
        simp only [List.map_cons, List.map_append, List.singleton_append, List.map_map]
        rw [frame_chunk_zero data T hS hc]
        congr 1
        rw [hmap]
        apply List.map_congr_left
        intro j _
        simp only [Function.comp]
        apply frame_chunk_shift
        intro i hi
        rw [e_ex]
        simp only [pop_planes, hi, if_true, circlebuf_pop_front]
      · intro i hi
        have hi1 : i < d1.audio_planes := by rw [e_pl]; exact hi
        simp only
        rw [hbytes i hi1, e_ex]
        simp only [pop_planes, hi, if_true, circlebuf_pop_front]
        rw [List.drop_drop, hdiv]
        congr 1
        ring
      · intro i hi
        have hi1 : d1.audio_planes ≤ i := by rw [e_pl]; exact hi
        simp only
        rw [hother i hi1, e_ex]
        have hni : ¬ i < data.audio_planes := by omega
        simp only [pop_planes, hni, if_false]
    · rw [if_neg (by rw [h0]; exact hc)]
      have hz : T / frame_size_bytes data = 0 := Nat.div_eq_of_lt (by omega)
      refine ⟨(data, []), rfl, ?_, ?_, ?_⟩
      · rw [hz]
        rfl
      · intro i _
        rw [hz]
        simp
      · intro i _
        rfl

/-- The plane height of `copy_data` written out: whenever a plane has a row to copy, its
height is `height` for plane 0 and `height / 2` for the other planes. -/
theorem plane_height_rows (height : Int) (p : Nat) :
    (0 < plane_height height p →
      plane_height height p = if p = 0 then height else height / 2) ∧
    (0 < (if p = 0 then height else height / 2) →
      plane_height height p = if p = 0 then height else height / 2) := by
  unfold plane_height
  by_cases hp : p = 0
  · subst hp
    simp
  · simp only [hp, if_false]
    constructor
    · intro hpos
      rcases lt_or_le height 0 with hneg | hnn
      · have h1 : 0 ≤ (-height).tdiv 2 := Int.tdiv_nonneg (by omega) (by decide)
        rw [Int.neg_tdiv] at h1
        omega
      · exact Int.tdiv_eq_ediv hnn (by decide)
    · intro hpos
      exact Int.tdiv_eq_ediv (by omega) (by decide)

theorem plane_height_row_iff (height : Int) (p : Nat) (y : Int) (hy : 0 ≤ y) :
    y < plane_height height p ↔ y < (if p = 0 then height else height / 2) := by
  constructor
  · intro h
    rw [← (plane_height_rows height p).1 (by omega)]
    exact h
  · intro h
    rw [(plane_height_rows height p).2 (by omega)]
    exact h

/-- What `copy_data` does, in terms of its locals `plane_height`, `frame_rowsize` and
`bytes`. -/
theorem copy_data_content (pic : AVPicture) (frame : video_data) (height : Int) :
    ((∀ p, p < YUV420_PLANES → 0 < plane_height height p →
        0 ≤ frame_rowsize frame p ∧ 0 ≤ pic.linesize p ∧
        (plane_height height p - 1) * frame_rowsize frame p ≤ INT_MAX ∧
        (plane_height height p - 1) * pic.linesize p ≤ INT_MAX) →
      ∃ pic', copy_data pic frame height = Except.ok pic') ∧
    (∀ pic', copy_data pic frame height = Except.ok pic' →
      pic'.linesize = pic.linesize ∧
      (∀ p, copy_bytes pic frame p = min (frame_rowsize frame p) (pic.linesize p)) ∧
      (∀ p, p < YUV420_PLANES → ∀ y x : Int, 0 ≤ y → y < plane_height height p → 0 ≤ x →
        x < copy_bytes pic frame p →
        pic'.data p (y * pic.linesize p + x) = frame.data p (y * frame_rowsize frame p + x)) ∧
      (∀ p a, ¬ (p < YUV420_PLANES ∧ ∃ y x : Int, 0 ≤ y ∧ y < plane_height height p ∧ 0 ≤ x ∧
          x < copy_bytes pic frame p ∧ a = y * pic.linesize p + x) →
        pic'.data p a = pic.data p a) ∧
      (∀ frame2 : video_data, frame2.linesize = frame.linesize →
        (∀ p, p < YUV420_PLANES → ∀ y x : Int, 0 ≤ y → y < plane_height height p → 0 ≤ x →
          x < copy_bytes pic frame p →
          frame2.data p (y * frame_rowsize frame p + x)
            = frame.data p (y * frame_rowsize frame p + x)) →
        copy_data pic frame2 height = Except.ok pic')) := by
  constructor
  · intro hwf
    obtain ⟨m0, h0⟩ := copy_plane_defined pic frame height 0 (hwf 0 (by decide))
    obtain ⟨m1, h1⟩ := copy_plane_defined pic frame height 1 (hwf 1 (by decide))
    obtain ⟨m2, h2⟩ := copy_plane_defined pic frame height 2 (hwf 2 (by decide))
    unfold copy_data
    rw [h0, h1, h2]
    exact ⟨_, rfl⟩
  · intro pic' h
    obtain ⟨hls, hpl, hother⟩ := copy_data_planes pic frame height pic' h
    refine ⟨hls, fun p => (copy_bytes_le pic frame p).2.2, ?_, ?_, ?_⟩
    · intro p hp y x hy0 hyh hx0 hxb
      have hc := hpl p hp
      unfold copy_plane at hc
      obtain ⟨hw, _⟩ := copy_rows_content _ _ _ _ (copy_bytes_le pic frame p).1 _ _ _ hc
      have hy : ((y.toNat : Nat) : Int) = y := Int.toNat_of_nonneg hy0
      have hlt : y.toNat < (plane_height height p).toNat := by
        rw [Int.lt_toNat, hy]
        exact hyh
      have := hw y.toNat x hlt hx0 hxb
      rw [hy] at this
      exact this
    · intro p a hna
      by_cases hp : p < YUV420_PLANES
      · have hc := hpl p hp
        unfold copy_plane at hc
        obtain ⟨_, hu⟩ := copy_rows_content _ _ _ _ (copy_bytes_le pic frame p).1 _ _ _ hc
        apply hu a
        intro y x hy hx0 hxb heq
        exact hna ⟨hp, (y : Int), x, Int.ofNat_nonneg y, Int.lt_toNat.mp hy, hx0, hxb, heq⟩
      · rw [hother p (not_lt.mp hp)]
    · intro frame2 hl hag
      rw [← h]
      unfold copy_data
      rw [copy_plane_reads pic frame frame2 height 0 hl (hag 0 (by decide)),
        copy_plane_reads pic frame frame2 height 1 hl (hag 1 (by decide)),
        copy_plane_reads pic frame frame2 height 2 hl (hag 2 (by decide))]

/-! ## C1: blocks that end at or before the start -/

/-- C1, as stated, fails: the rejection test of `prepare_audio` is only reached by a block
whose timestamp lies before `start_timestamp`. An empty block stamped exactly at
`start_timestamp` ends at `start_timestamp`, yet `prepare_audio` returns true for it; and
at a sample rate of 2 GHz a one-frame block stamped at `start_timestamp` also ends there
(its duration rounds down to 0 ns) and its 4 bytes are admitted to plane 0. -/
theorem prepare_audio_accepts_block_ending_at_start :
    (audio_end_ts sample_data (sample_block 1000000000 0) ≤ sample_data.start_timestamp ∧
      Except.map Prod.fst (prepare_audio sample_data (sample_block 1000000000 0))
        = Except.ok true) ∧
    (audio_end_ts { sample_data with audio_samplerate := 2000000000 } (sample_block 1000000000 1)
        ≤ sample_data.start_timestamp ∧
      Except.map (fun r => (r.1.excess_frames 0).size)
        (receive_audio { sample_data with audio_samplerate := 2000000000 }
          (sample_block 1000000000 1) sample_audio_ext) = Except.ok 4) := by
  refine ⟨⟨by decide, rfl⟩, ⟨by decide, rfl⟩⟩

/-- C1, amended: for every audio block whose timestamp lies before `start_timestamp` and
whose end timestamp `end_ts` (timestamp + frames * 10^9 / sample_rate, as the code computes
it) is at or before `start_timestamp`, with a non-zero sample rate and the audio stream
present, `prepare_audio` returns false and `receive_audio` returns with the pipeline
unchanged, so that no byte is admitted to any excess-sample buffer, and without any
external call, so that nothing is encoded. -/
theorem receive_audio_rejects_block_before_start (data : ffmpeg_data) (frame : audio_data)
    (ext : Nat → audio_ext) (h_audio : data.audio.isSome = true)
    (h_rate : data.audio_samplerate ≠ 0) (h_ts : frame.timestamp < data.start_timestamp)
    (h_end : audio_end_ts data frame ≤ data.start_timestamp) :
    prepare_audio data frame = Except.ok (false, frame) ∧
    receive_audio data frame ext = Except.ok (data, []) := by
  have hp : prepare_audio data frame = Except.ok (false, frame) := by
    simp [prepare_audio, h_ts, h_rate, h_end]
  refine ⟨hp, ?_⟩
  have h0 : data.start_timestamp ≠ 0 := by omega
  cases ha : data.audio with
  | none => simp [ha] at h_audio
  | some a => simp [receive_audio, ha, h0, hp]

/-- Witness for C1 (amended): 48 kHz, start at 1,000,000,000 ns, a block of 4000 frames
stamped 900,000,000 ns ends at 983,333,333 ns and is rejected. -/
theorem receive_audio_rejects_block_before_start_witness :
    (sample_data.audio.isSome = true ∧ sample_data.audio_samplerate ≠ 0 ∧
      (sample_block 900000000 4000).timestamp < sample_data.start_timestamp ∧
      audio_end_ts sample_data (sample_block 900000000 4000) = 983333333 ∧
      audio_end_ts sample_data (sample_block 900000000 4000) ≤ sample_data.start_timestamp) ∧
    (prepare_audio sample_data (sample_block 900000000 4000)
        = Except.ok (false, sample_block 900000000 4000) ∧
      receive_audio sample_data (sample_block 900000000 4000) sample_audio_ext
        = Except.ok (sample_data, [])) :=
  ⟨⟨rfl, by decide, by decide, by decide, by decide⟩,
    receive_audio_rejects_block_before_start sample_data (sample_block 900000000 4000)
      sample_audio_ext rfl (by decide) (by decide) (by decide)⟩

/-! ## C2: blocks that straddle the start -/

/-- C2: for every audio block that straddles `start_timestamp` (its timestamp is before
`start_timestamp` and its end timestamp `end_ts`, as the code computes it, is after),
the product `(start_timestamp - timestamp) * sample_rate` fits in 64 bits, so `cutoff` is
`floor((start_timestamp - timestamp) * sample_rate / 10^9)`; `prepare_audio` returns true
with every active plane pointer advanced by `cutoff * audio_size` bytes, the other plane
pointers untouched, and `frames - cutoff` frames left, and `receive_audio` pushes exactly
`(frames - cutoff) * audio_size` bytes per active plane. The fields are within the range
of their C types and the block, of `frames * audio_size` bytes per plane, has a size that
fits `size_t`. -/
theorem prepare_audio_trims_straddling_block (data : ffmpeg_data) (frame : audio_data)
    (h_start : data.start_timestamp < u64) (h_frames : frame.frames < u32)
    (h_size : frame.frames * data.audio_size < u64)
    (h_ts : frame.timestamp < data.start_timestamp)
    (h_end : data.start_timestamp < audio_end_ts data frame) :
    (data.start_timestamp - frame.timestamp) * data.audio_samplerate < u64 ∧
    audio_cutoff data frame
      = (data.start_timestamp - frame.timestamp) * data.audio_samplerate / 1000000000 ∧
    audio_cutoff data frame ≤ frame.frames ∧
    ∃ out : audio_data,
      prepare_audio data frame = Except.ok (true, out) ∧
      out.frames = frame.frames - audio_cutoff data frame ∧
      out.timestamp = frame.timestamp ∧
      (∀ i, i < data.audio_planes →
        out.data i = (frame.data i).add (audio_cutoff data frame * data.audio_size)) ∧
      (∀ i, data.audio_planes ≤ i → out.data i = frame.data i) ∧
      (∀ i, i < data.audio_planes →
        ((push_planes data out).excess_frames i).size
          = (data.excess_frames i).size
            + (frame.frames - audio_cutoff data frame) * data.audio_size) := by
  obtain ⟨hlt, hc, hcf, hr⟩ := cutoff_bounds data frame h_start h_ts h_end
  have hc32 : audio_cutoff data frame % u32 = audio_cutoff data frame :=
    Nat.mod_eq_of_lt (by omega)
  have hmul : audio_cutoff data frame * data.audio_size ≤ frame.frames * data.audio_size :=
    Nat.mul_le_mul_right _ (by omega)
  have hadv : data.audio_size * audio_cutoff data frame % u64
      = audio_cutoff data frame * data.audio_size := by
    rw [Nat.mul_comm, Nat.mod_eq_of_lt (by omega)]
  have hfr : (frame.frames + u32 - audio_cutoff data frame) % u32
      = frame.frames - audio_cutoff data frame := by
    simp only [u32] at *
    omega
  have hrem : (frame.frames - audio_cutoff data frame) * data.audio_size
      ≤ frame.frames * data.audio_size := Nat.mul_le_mul_right _ (by omega)
  refine ⟨hlt, hc, by omega,
    { data := fun i =>
        if i < data.audio_planes then
          (frame.data i).add (data.audio_size * (audio_cutoff data frame % u32) % u64)
        else frame.data i,
      frames := (frame.frames + u32 - audio_cutoff data frame % u32) % u32,
      timestamp := frame.timestamp }, ?_, ?_, rfl, ?_, ?_, ?_⟩
  · have hne : ¬ audio_end_ts data frame ≤ data.start_timestamp := by omega
    simp only [prepare_audio, h_ts, hr, hne, if_true, if_false]
  · simp only [hc32, hfr]
  · intro i hi
    simp only [hi, if_true, hc32, hadv]
  · intro i hi
    have : ¬ i < data.audio_planes := by omega
    simp only [this, if_false]
  · intro i hi
    simp only [push_planes, hi, if_true, circlebuf.size, circlebuf_push_back, pointer.read,
      List.length_append, List.length_map, List.length_range, hc32, hfr]
    rw [Nat.mod_eq_of_lt (by omega)]

/-- Witness for C2: 48 kHz, start at 1,000,000,000 ns, a block of 9600 frames stamped
900,000,000 ns ends at 1,100,000,000 ns; the cutoff is 4800 frames and 4800 frames are
admitted. -/
theorem prepare_audio_trims_straddling_block_witness :
    (sample_data.start_timestamp < u64 ∧ (sample_block 900000000 9600).frames < u32 ∧
      (sample_block 900000000 9600).frames * sample_data.audio_size < u64 ∧
      (sample_block 900000000 9600).timestamp < sample_data.start_timestamp ∧
      audio_end_ts sample_data (sample_block 900000000 9600) = 1100000000 ∧
      sample_data.start_timestamp < audio_end_ts sample_data (sample_block 900000000 9600)) ∧
    audio_cutoff sample_data (sample_block 900000000 9600) = 4800 ∧
    ∃ out : audio_data,
      prepare_audio sample_data (sample_block 900000000 9600) = Except.ok (true, out) ∧
      out.frames = 4800 ∧ (out.data 0).off = 19200 ∧ (out.data 1).off = 19200 := by
  refine ⟨⟨by decide, by decide, by decide, by decide, by decide, by decide⟩, by decide, ?_⟩
  obtain ⟨_, _, _, out, h1, h2, _, h4, _, _⟩ :=
    prepare_audio_trims_straddling_block sample_data (sample_block 900000000 9600)
      (by decide) (by decide) (by decide) (by decide) (by decide)
  have hc : audio_cutoff sample_data (sample_block 900000000 9600) = 4800 := by decide
  refine ⟨out, h1, ?_, ?_, ?_⟩
  · rw [h2, hc]
    rfl
  · rw [h4 0 (by decide), hc]
    rfl
  · rw [h4 1 (by decide), hc]
    rfl

/-! ## C3: the cutoff stays within the block -/

/-- C3: whenever `prepare_audio` returns true for a block whose timestamp lies before
`start_timestamp` (which requires a non-zero sample rate), the cutoff does not exceed the
frames of the block: the `(uint32_t)` cast of `cutoff` keeps its value, the 32-bit
subtraction yields `frames - cutoff` without wrapping, and every active plane pointer is
advanced by at most `frames * audio_size` bytes, the other plane pointers not at all. -/
theorem prepare_audio_cutoff_within_block (data : ffmpeg_data) (frame out : audio_data)
    (h_start : data.start_timestamp < u64) (h_frames : frame.frames < u32)
    (h_ts : frame.timestamp < data.start_timestamp)
    (h_ret : prepare_audio data frame = Except.ok (true, out)) :
    data.audio_samplerate ≠ 0 ∧
    audio_cutoff data frame ≤ frame.frames ∧
    audio_cutoff data frame % u32 = audio_cutoff data frame ∧
    out.frames = frame.frames - audio_cutoff data frame ∧
    out.frames ≤ frame.frames ∧
    (∀ i, i < data.audio_planes →
      ∃ adv, out.data i = (frame.data i).add adv ∧ adv ≤ frame.frames * data.audio_size) ∧
    (∀ i, data.audio_planes ≤ i → out.data i = frame.data i) := by
  unfold prepare_audio at h_ret
  rw [if_pos h_ts] at h_ret
  split_ifs at h_ret with h1 h2
  · simp at h_ret
  have h_end : data.start_timestamp < audio_end_ts data frame := by omega
  obtain ⟨_, _, hcf, hr⟩ := cutoff_bounds data frame h_start h_ts h_end
  have hc32 : audio_cutoff data frame % u32 = audio_cutoff data frame :=
    Nat.mod_eq_of_lt (by omega)
  have hfr : (frame.frames + u32 - audio_cutoff data frame) % u32
      = frame.frames - audio_cutoff data frame := by
    simp only [u32] at *
    omega
  have hout := (Prod.mk.inj (Except.ok.inj h_ret)).2
  subst hout
  refine ⟨hr, by omega, hc32, ?_, ?_, ?_, ?_⟩
  · simp only [hc32, hfr]
  · simp only [hc32, hfr]
    omega
  · intro i hi
    refine ⟨data.audio_size * audio_cutoff data frame % u64, ?_, ?_⟩
    · simp only [hi, if_true, hc32]
    · calc data.audio_size * audio_cutoff data frame % u64
          ≤ data.audio_size * audio_cutoff data frame := Nat.mod_le _ _
        _ = audio_cutoff data frame * data.audio_size := Nat.mul_comm _ _
        _ ≤ frame.frames * data.audio_size := Nat.mul_le_mul_right _ (by omega)
  · intro i hi
    have : ¬ i < data.audio_planes := by omega
    simp only [this, if_false]

/-- Witness for C3: the block of 9600 frames stamped 100 ms before the start is trimmed
by 4800 frames. -/
theorem prepare_audio_cutoff_within_block_witness :
    ∃ out : audio_data,
      (sample_data.start_timestamp < u64 ∧ (sample_block 900000000 9600).frames < u32 ∧
        (sample_block 900000000 9600).timestamp < sample_data.start_timestamp ∧
        prepare_audio sample_data (sample_block 900000000 9600) = Except.ok (true, out)) ∧
      audio_cutoff sample_data (sample_block 900000000 9600)
        ≤ (sample_block 900000000 9600).frames ∧
      out.frames ≤ (sample_block 900000000 9600).frames :=
  ⟨_, ⟨by decide, by decide, by decide, rfl⟩,
    (prepare_audio_cutoff_within_block sample_data (sample_block 900000000 9600) _
      (by decide) (by decide) (by decide) rfl).2.1,
    (prepare_audio_cutoff_within_block sample_data (sample_block 900000000 9600) _
      (by decide) (by decide) (by decide) rfl).2.2.2.2.1⟩

/-! ## C4: audio delivered before the first video frame -/

/-- C4: while `start_timestamp` is still zero (no video frame has been received) and the
audio stream is present, every sequence of audio blocks delivered to `receive_audio`
returns with the pipeline unchanged, so the excess-sample buffers stay as they were
(empty) and `total_samples` keeps its value, and with an empty trace of external calls:
`encode_audio`, whose first action is the call of `avcodec_fill_audio_frame`, is never
invoked. A pipeline is in this situation when `ffmpeg_data_init` has succeeded: it leaves
`start_timestamp` zero, `total_samples` zero and every excess-sample buffer empty. -/
theorem receive_audio_before_first_video (data : ffmpeg_data)
    (blocks : List (audio_data × (Nat → audio_ext)))
    (h_audio : data.audio.isSome = true) (h_zero : data.start_timestamp = 0) :
    run data (blocks.map (fun b => delivery.audio b.1 b.2)) = Except.ok (data, []) ∧
    (∀ (data0 : ffmpeg_data) (filename : Option String) (env : init_env) (d : ffmpeg_data)
      (c : List call), ffmpeg_data_init data0 filename env = Except.ok (true, d, c) →
      d.start_timestamp = 0 ∧ d.total_samples = 0 ∧ ∀ i, (d.excess_frames i).size = 0) := by
  constructor
  · induction blocks with
    | nil => rfl
    | cons b rest ih =>
      have h1 : receive_audio data b.1 b.2 = Except.ok (data, []) := by
        cases ha : data.audio with
        | none => simp [ha] at h_audio
        | some a => simp [receive_audio, ha, h_zero]
      simp only [List.map_cons, run, deliver, h1, ih, List.append_nil]
  · intro data0 filename env d c h
    obtain ⟨_, t2, t3, _, t5⟩ := ffmpeg_data_init_fresh data0 filename env d c h
    exact ⟨t2, t3, t5⟩

/-- Witness for C4: two blocks delivered to a pipeline that has seen no video frame. -/
theorem receive_audio_before_first_video_witness :
    ({ sample_data with start_timestamp := 0 }.audio.isSome = true ∧
      { sample_data with start_timestamp := 0 }.start_timestamp = 0) ∧
    run { sample_data with start_timestamp := 0 }
        ([(sample_block 900000000 9600, sample_audio_ext),
          (sample_block 1100000000 9600, sample_audio_ext)].map
            (fun b => delivery.audio b.1 b.2))
      = Except.ok ({ sample_data with start_timestamp := 0 }, []) :=
  ⟨⟨rfl, rfl⟩,
    (receive_audio_before_first_video { sample_data with start_timestamp := 0 }
      [(sample_block 900000000 9600, sample_audio_ext),
       (sample_block 1100000000 9600, sample_audio_ext)] rfl rfl).1⟩

/-! ## C5: lock-step of the plane buffers -/

/-- C5: starting from empty buffers, after every sequence of deliveries (audio blocks, and
video frames in between) the excess-sample buffers of all active planes hold the same
number of bytes and the other buffers hold none; hence the test of plane 0 in the drain
loop has the same outcome as the test of any active plane, and, with at least one active
plane, `receive_audio` is the same function as its variant whose loop tests every plane.
The next push adds the same byte count to every active plane and a drain iteration
removes the same byte count from every active plane. -/
theorem excess_buffers_lock_step (data : ffmpeg_data) (evs : List delivery)
    (r : ffmpeg_data × List call)
    (h_empty : ∀ i, (data.excess_frames i).size = 0) (h_run : run data evs = Except.ok r) :
    (∀ i, i < r.1.audio_planes → (r.1.excess_frames i).size = (r.1.excess_frames 0).size) ∧
    (∀ i, r.1.audio_planes ≤ i → (r.1.excess_frames i).size = 0) ∧
    (∀ i, i < r.1.audio_planes →
      (frame_size_bytes r.1 ≤ (r.1.excess_frames 0).size
        ↔ frame_size_bytes r.1 ≤ (r.1.excess_frames i).size)) ∧
    (0 < r.1.audio_planes →
      ∀ frame ext, receive_audio_every r.1 frame ext = receive_audio r.1 frame ext) ∧
    (∀ inp i, i < r.1.audio_planes →
      ((push_planes r.1 inp).excess_frames i).size
        = (r.1.excess_frames i).size + inp.frames * r.1.audio_size % u64) ∧
    (∀ i, i < r.1.audio_planes →
      ((pop_planes r.1).excess_frames i).size
        = (r.1.excess_frames i).size - frame_size_bytes r.1) := by
  have hl0 : lock_step data := fun i _ => by rw [h_empty i, h_empty 0]
  have hi0 : inactive_empty data := fun i _ => h_empty i
  obtain ⟨_, _, _, hl, hi, _⟩ := run_fields evs data r h_run
  have hl1 := hl hl0
  refine ⟨hl1, hi hi0, ?_, ?_, ?_, ?_⟩
  · intro i hi'
    rw [hl1 i hi']
  · intro hp frame ext
    exact receive_audio_every_eq r.1 frame ext hl1 hp
  · intro inp i hi'
    rw [push_planes_size, if_pos hi']
  · intro i hi'
    rw [pop_planes_size, if_pos hi']

/-- Witness for C5: with encoder frames of 2 samples (8 bytes per plane), a block of 3
frames stamped at the start pushes 12 bytes to each of the two planes; one frame is
drained and both planes are left with 4 bytes. -/
theorem excess_buffers_lock_step_witness :
    ∃ r : ffmpeg_data × List call,
      ((∀ i, ({ sample_data with frame_size := 2 }.excess_frames i).size = 0) ∧
        run { sample_data with frame_size := 2 }
          [delivery.audio (sample_block 1000000000 3) sample_audio_ext] = Except.ok r) ∧
      (r.1.excess_frames 0).size = 4 ∧ (r.1.excess_frames 1).size = 4 ∧
      (r.1.excess_frames 1).size = (r.1.excess_frames 0).size :=
  ⟨_, ⟨fun _ => rfl, rfl⟩, rfl, rfl,
    (excess_buffers_lock_step { sample_data with frame_size := 2 }
      [delivery.audio (sample_block 1000000000 3) sample_audio_ext] _ (fun _ => rfl) rfl).1 1
      (by decide)⟩

/-! ## C6: the running counters -/

/-- C6, as stated, fails: when `avcodec_encode_video2` reports an error, `receive_video`
returns before `total_frames++`; the frame leaves `total_frames` at its old value 0
instead of raising it to 1. -/
theorem receive_video_keeps_total_frames_on_encode_error :
    sample_data.total_frames = 0 ∧
    Except.map (fun r => r.1.total_frames)
      (receive_video sample_data (sample_frame 1000000000)
        { sample_video_ext with encode_ret := -1 }) = Except.ok 0 := by
  exact ⟨rfl, rfl⟩

/-- C6, amended: along every sequence of deliveries that returns, with `frame_size` not
negative, `total_frames` and `total_samples` never decrease. A `receive_video` call that
returns raises `total_frames` by exactly 1, whatever the write step yields, except that it
leaves `total_frames` unchanged when the frame goes through the encoder and
`avcodec_encode_video2` reports an error; it never touches `total_samples`. An
`encode_audio` call that returns raises `total_samples` by exactly `frame_size`, whatever
the encode and write steps yield, except that it leaves `total_samples` unchanged when
`avcodec_fill_audio_frame` fails; it never touches `total_frames`. -/
theorem counters_advance (data : ffmpeg_data) (evs : List delivery)
    (r : ffmpeg_data × List call) (h_size : 0 ≤ data.frame_size)
    (h_run : run data evs = Except.ok r) :
    (data.total_frames ≤ r.1.total_frames ∧ data.total_samples ≤ r.1.total_samples) ∧
    (∀ (d : ffmpeg_data) (frame : video_data) (e : video_ext) (r1 : ffmpeg_data × List call),
      receive_video d frame e = Except.ok r1 →
      ∃ output, d.output = some output ∧
        r1.1.total_frames
          = (if output.rawpicture = false ∧ e.encode_ret < 0 then d.total_frames
             else d.total_frames + 1) ∧
        r1.1.total_samples = d.total_samples) ∧
    (∀ (d : ffmpeg_data) (e : audio_ext) (r1 : ffmpeg_data × List call),
      encode_audio d e = Except.ok r1 →
      r1.1.total_samples
          = (if e.fill_ret < 0 then d.total_samples else d.total_samples + d.frame_size) ∧
        r1.1.total_frames = d.total_frames) := by
  obtain ⟨_, _, _, _, _, hs, hf, _⟩ := run_fields evs data r h_run
  refine ⟨⟨hf, hs h_size⟩, ?_, ?_⟩
  · intro d frame e r1 h
    obtain ⟨_, _, _, _, v5, _, _, _, output, ho, v9⟩ := receive_video_fields d frame e r1 h
    exact ⟨output, ho, v9, v5⟩
  · intro d e r1 h
    obtain ⟨_, _, _, _, _, e6, _, _, e9⟩ := encode_audio_fields d e r1 h
    exact ⟨e9, e6⟩

/-- Witness for C6 (amended): with encoder frames of 2 samples, a video frame whose
encoding fails, a video frame that is encoded and an audio block of 5 frames leave
`total_frames = 1` and `total_samples = 4`. -/
theorem counters_advance_witness :
    ∃ r : ffmpeg_data × List call,
      (0 ≤ { sample_data with frame_size := 2 }.frame_size ∧
        run { sample_data with frame_size := 2 }
          [delivery.video (sample_frame 1000000000) { sample_video_ext with encode_ret := -1 },
           delivery.video (sample_frame 1033333333) sample_video_ext,
           delivery.audio (sample_block 1000000000 5) sample_audio_ext] = Except.ok r) ∧
      r.1.total_frames = 1 ∧ r.1.total_samples = 4 ∧
      ({ sample_data with frame_size := 2 }.total_frames ≤ r.1.total_frames ∧
        { sample_data with frame_size := 2 }.total_samples ≤ r.1.total_samples) :=
  ⟨_, ⟨by decide, rfl⟩, rfl, rfl,
    (counters_advance { sample_data with frame_size := 2 }
      [delivery.video (sample_frame 1000000000) { sample_video_ext with encode_ret := -1 },
       delivery.video (sample_frame 1033333333) sample_video_ext,
       delivery.audio (sample_block 1000000000 5) sample_audio_ext] _ (by decide) rfl).1⟩

/-! ## C7: the start timestamp -/

/-- C7, as stated, fails for a first video frame stamped 0: zero is also the value of an
unset `start_timestamp`, so after that frame `start_timestamp` is 0 and the next video
frame, stamped 5, changes it to 5. -/
theorem start_timestamp_changed_by_second_frame :
    Except.map (fun r => r.1.start_timestamp)
      (run { sample_data with start_timestamp := 0 }
        [delivery.video (sample_frame 0) sample_video_ext]) = Except.ok 0 ∧
    Except.map (fun r => r.1.start_timestamp)
      (run { sample_data with start_timestamp := 0 }
        [delivery.video (sample_frame 0) sample_video_ext,
         delivery.video (sample_frame 5) sample_video_ext]) = Except.ok 5 := by
  exact ⟨rfl, rfl⟩

/-- C7, amended: starting with `start_timestamp` unset (zero), if the first video frame of
a sequence of deliveries has a non-zero timestamp `t`, then after the whole sequence, of
any length and with any frames, blocks and timestamps after that first frame,
`start_timestamp` is `t`. Call by call: `receive_video` sets `start_timestamp` to the
timestamp of its frame exactly when it was zero, `receive_audio` never changes it, and no
delivery changes a non-zero `start_timestamp`. -/
theorem start_timestamp_set_once (data : ffmpeg_data) (evs : List delivery)
    (r : ffmpeg_data × List call) (t : Nat) (h_zero : data.start_timestamp = 0)
    (h_first : first_video_timestamp evs = some t) (h_t : t ≠ 0)
    (h_run : run data evs = Except.ok r) :
    r.1.start_timestamp = t ∧
    (∀ (d : ffmpeg_data) (frame : video_data) (e : video_ext) (r1 : ffmpeg_data × List call),
      receive_video d frame e = Except.ok r1 →
      r1.1.start_timestamp
        = (if d.start_timestamp = 0 then frame.timestamp else d.start_timestamp)) ∧
    (∀ (d : ffmpeg_data) (frame : audio_data) (ext : Nat → audio_ext)
      (r1 : ffmpeg_data × List call),
      receive_audio d frame ext = Except.ok r1 → r1.1.start_timestamp = d.start_timestamp) ∧
    (∀ (d : ffmpeg_data) (ev : delivery) (r1 : ffmpeg_data × List call),
      d.start_timestamp ≠ 0 → deliver d ev = Except.ok r1 →
      r1.1.start_timestamp = d.start_timestamp) := by
  refine ⟨?_, ?_, ?_, ?_⟩
  · induction evs generalizing data r with
    | nil => simp [first_video_timestamp] at h_first
    | cons ev rest ih =>
      unfold run at h_run
      split at h_run
      · simp at h_run
      rename_i data1 c1 hd
      split at h_run
      · simp at h_run
      rename_i data2 c2 hr
      have h' := Except.ok.inj h_run
      subst h'
      cases ev with
      | video frame e =>
        have ht : frame.timestamp = t := by
          simpa [first_video_timestamp] using h_first
        obtain ⟨_, _, _, _, _, _, _, v8, _⟩ := receive_video_fields data frame e _ hd
        rw [if_pos h_zero, ht] at v8
        have v8' : data1.start_timestamp = t := v8
        obtain ⟨_, _, _, _, _, _, _, b8⟩ := run_fields rest data1 _ hr
        have hne : data1.start_timestamp ≠ 0 := by rw [v8']; exact h_t
        have := b8 hne
        simp only at this ⊢
        rw [this, v8']
      | audio frame ext =>
        have hf : first_video_timestamp rest = some t := by
          simpa [first_video_timestamp] using h_first
        obtain ⟨_, _, _, d4, _⟩ := receive_audio_fields data frame ext _ hd
        have hz : data1.start_timestamp = 0 := by
          have : data1.start_timestamp = data.start_timestamp := d4
          rw [this, h_zero]
        exact ih data1 (data2, c2) hz hf hr
  · intro d frame e r1 h
    exact (receive_video_fields d frame e r1 h).2.2.2.2.2.2.2.1
  · intro d frame ext r1 h
    exact (receive_audio_fields d frame ext r1 h).2.2.2.1
  · intro d ev r1 h0 h
    exact (deliver_fields d ev r1 h).2.2.2.2.2.2.2 h0

/-- Witness for C7 (amended): an audio block, a first video frame stamped
1,000,000,000 ns, a second video frame and another audio block leave
`start_timestamp = 1,000,000,000`. -/
theorem start_timestamp_set_once_witness :
    ∃ r : ffmpeg_data × List call,
      ({ sample_data with start_timestamp := 0, frame_size := 2 }.start_timestamp = 0 ∧
        first_video_timestamp
          [delivery.audio (sample_block 900000000 3) sample_audio_ext,
           delivery.video (sample_frame 1000000000) sample_video_ext,
           delivery.video (sample_frame 1033333333) sample_video_ext,
           delivery.audio (sample_block 1000000000 3) sample_audio_ext] = some 1000000000 ∧
        (1000000000 : Nat) ≠ 0 ∧
        run { sample_data with start_timestamp := 0, frame_size := 2 }
          [delivery.audio (sample_block 900000000 3) sample_audio_ext,
           delivery.video (sample_frame 1000000000) sample_video_ext,
           delivery.video (sample_frame 1033333333) sample_video_ext,
           delivery.audio (sample_block 1000000000 3) sample_audio_ext] = Except.ok r) ∧
      r.1.start_timestamp = 1000000000 :=
  ⟨_, ⟨rfl, rfl, by decide, rfl⟩,
    (start_timestamp_set_once { sample_data with start_timestamp := 0, frame_size := 2 }
      [delivery.audio (sample_block 900000000 3) sample_audio_ext,
       delivery.video (sample_frame 1000000000) sample_video_ext,
       delivery.video (sample_frame 1033333333) sample_video_ext,
       delivery.audio (sample_block 1000000000 3) sample_audio_ext] _ 1000000000
      rfl rfl (by decide) rfl).1⟩

/-! ## C8: the plane copy of the video conform stage -/

/-- C8: for every source frame, destination picture and height on which the C code has
defined behaviour (`copy_data` returns), and it has whenever the rows to copy have
non-negative sizes and the row offsets fit an `int`: the row sizes of the picture are
unchanged; for each of the 3 planes `p`, each row `y` with `0 ≤ y < h_p`, where
`h_0 = height` and `h_1 = h_2 = height / 2`, and each `x` with `0 ≤ x < b_p`, where `b_p`
is the minimum of the source row size `(int)frame->linesize[p]` and the destination row
size, the destination byte at `y * dst_linesize + x` equals the source byte at
`y * src_linesize + x`; every other destination byte, in these planes beyond `b_p` in a
row or beyond the rows, and in any other plane, keeps its value; and the result depends on
no source byte outside the copied positions (a source frame that agrees on them yields the
same picture). The conversion `(int)frame->linesize[p]` is the row size itself below
`2^31` and the row size minus `2^32` from there on. -/
theorem copy_data_copies_rows (pic : AVPicture) (frame : video_data) (height : Int) :
    ((∀ p, p < 3 → 0 < (if p = 0 then height else height / 2) →
        0 ≤ to_int (frame.linesize p) ∧ 0 ≤ pic.linesize p ∧
        ((if p = 0 then height else height / 2) - 1) * to_int (frame.linesize p) ≤ INT_MAX ∧
        ((if p = 0 then height else height / 2) - 1) * pic.linesize p ≤ INT_MAX) →
      ∃ pic', copy_data pic frame height = Except.ok pic') ∧
    (∀ p, (frame.linesize p < 2147483648 →
        to_int (frame.linesize p) = (frame.linesize p : Int)) ∧
      (2147483648 ≤ frame.linesize p → frame.linesize p < 4294967296 →
        to_int (frame.linesize p) = (frame.linesize p : Int) - 4294967296)) ∧
    (∀ pic', copy_data pic frame height = Except.ok pic' →
      pic'.linesize = pic.linesize ∧
      (∀ p, p < 3 → ∀ y x : Int,
        0 ≤ y → y < (if p = 0 then height else height / 2) →
        0 ≤ x → x < min (to_int (frame.linesize p)) (pic.linesize p) →
        pic'.data p (y * pic.linesize p + x)
          = frame.data p (y * to_int (frame.linesize p) + x)) ∧
      (∀ p a, ¬ (p < 3 ∧ ∃ y x : Int,
          0 ≤ y ∧ y < (if p = 0 then height else height / 2) ∧
          0 ≤ x ∧ x < min (to_int (frame.linesize p)) (pic.linesize p) ∧
          a = y * pic.linesize p + x) →
        pic'.data p a = pic.data p a) ∧
      (∀ frame2 : video_data, frame2.linesize = frame.linesize →
        (∀ p, p < 3 → ∀ y x : Int,
          0 ≤ y → y < (if p = 0 then height else height / 2) →
          0 ≤ x → x < min (to_int (frame.linesize p)) (pic.linesize p) →
          frame2.data p (y * to_int (frame.linesize p) + x)
            = frame.data p (y * to_int (frame.linesize p) + x)) →
        copy_data pic frame2 height = Except.ok pic')) := by
  obtain ⟨hdef, hcont⟩ := copy_data_content pic frame height
  refine ⟨?_, ?_, ?_⟩
  · intro hwf
    apply hdef
    intro p hp hpos
    have e := (plane_height_rows height p).1 hpos
    rw [e] at hpos ⊢
    exact hwf p hp hpos
  · intro p
    unfold to_int
    simp only [u32]
    constructor
    · intro hlt
      have hm : frame.linesize p % 4294967296 = frame.linesize p := Nat.mod_eq_of_lt (by omega)
      rw [hm, if_pos hlt]
    · intro hge hlt
      have hm : frame.linesize p % 4294967296 = frame.linesize p := Nat.mod_eq_of_lt hlt
      rw [hm, if_neg (by omega)]
      rfl
  · intro pic' h
    obtain ⟨hls, hb, hw, hu, hr⟩ := hcont pic' h
    have hb' : ∀ p, copy_bytes pic frame p
        = min (to_int (frame.linesize p)) (pic.linesize p) := hb
    refine ⟨hls, ?_, ?_, ?_⟩
    · intro p hp y x hy0 hyh hx0 hxb
      rw [← hb' p] at hxb
      exact hw p hp y x hy0 ((plane_height_row_iff height p y hy0).2 hyh) hx0 hxb
    · intro p a hna
      apply hu p a
      rintro ⟨hp, y, x, hy0, hyh, hx0, hxb, heq⟩
      rw [hb' p] at hxb
      exact hna ⟨hp, y, x, hy0, (plane_height_row_iff height p y hy0).1 hyh, hx0, hxb, heq⟩
    · intro frame2 hl hag
      apply hr frame2 hl
      intro p hp y x hy0 hyh hx0 hxb
      rw [hb' p] at hxb
      exact hag p hp y x hy0 ((plane_height_row_iff height p y hy0).1 hyh) hx0 hxb

/-- Witness for C8: a 4x4 frame with source rows of 4, 2, 2 bytes copied into a zeroed
picture with rows of 8, 4, 4 bytes. Plane 0 has 4 rows: byte 3 of row 3 goes from source
offset 15 to destination offset 27. Planes 1 and 2 have `4 / 2 = 2` rows of 2 bytes: byte
1 of row 1 goes from source offset 3 to destination offset 5, while destination offset 2
(beyond the 2 bytes of row 0) and destination offset 8 (row 2) keep their value 0. -/
theorem copy_data_copies_rows_witness :
    ∃ pic' : AVPicture,
      copy_data sample_data.dst_picture sample_tall_frame 4 = Except.ok pic' ∧
      pic'.data 0 27 = 15 ∧ pic'.data 0 4 = 0 ∧
      pic'.data 1 5 = 3 ∧ pic'.data 1 2 = 0 ∧ pic'.data 1 8 = 0 ∧
      pic'.data 2 5 = 3 ∧ pic'.data 2 2 = 0 ∧ pic'.data 2 8 = 0 := by
  have hwf : ∀ p, p < 3 → 0 < (if p = 0 then (4 : Int) else 4 / 2) →
      0 ≤ to_int (sample_tall_frame.linesize p) ∧ 0 ≤ sample_data.dst_picture.linesize p ∧
      ((if p = 0 then (4 : Int) else 4 / 2) - 1) * to_int (sample_tall_frame.linesize p)
        ≤ INT_MAX ∧
      ((if p = 0 then (4 : Int) else 4 / 2) - 1) * sample_data.dst_picture.linesize p
        ≤ INT_MAX := by
    intro p hp _
    interval_cases p <;> decide
  obtain ⟨pic', h⟩ := (copy_data_copies_rows sample_data.dst_picture sample_tall_frame 4).1 hwf
  obtain ⟨_, hw, hu, _⟩ :=
    (copy_data_copies_rows sample_data.dst_picture sample_tall_frame 4).2.2 pic' h
  have m0 : min (to_int (sample_tall_frame.linesize 0)) (sample_data.dst_picture.linesize 0)
      = 4 := by decide
  have m1 : min (to_int (sample_tall_frame.linesize 1)) (sample_data.dst_picture.linesize 1)
      = 2 := by decide
  have m2 : min (to_int (sample_tall_frame.linesize 2)) (sample_data.dst_picture.linesize 2)
      = 2 := by decide
  have l0 : sample_data.dst_picture.linesize 0 = 8 := rfl
  have l1 : sample_data.dst_picture.linesize 1 = 4 := rfl
  have l2 : sample_data.dst_picture.linesize 2 = 4 := rfl
  refine ⟨pic', h, ?_, ?_, ?_, ?_, ?_, ?_, ?_, ?_⟩
  · exact (hw 0 (by decide) 3 3 (by decide) (by decide) (by decide) (by decide)).trans rfl
  · refine (hu 0 4 ?_).trans rfl
    rintro ⟨_, y, x, hy0, hy1, hx0, hx1, heq⟩
    rw [m0] at hx1
    rw [l0] at heq
    simp only [if_true] at hy1
    omega
  · exact (hw 1 (by decide) 1 1 (by decide) (by decide) (by decide) (by decide)).trans rfl
  · refine (hu 1 2 ?_).trans rfl
    rintro ⟨_, y, x, hy0, hy1, hx0, hx1, heq⟩
    rw [m1] at hx1
    rw [l1] at heq
    omega
  · refine (hu 1 8 ?_).trans rfl
    rintro ⟨_, y, x, hy0, hy1, hx0, hx1, heq⟩
    rw [m1] at hx1
    rw [l1] at heq
    have hy2 : y < 2 := by simpa using hy1
    omega
  · exact (hw 2 (by decide) 1 1 (by decide) (by decide) (by decide) (by decide)).trans rfl
  · refine (hu 2 2 ?_).trans rfl
    rintro ⟨_, y, x, hy0, hy1, hx0, hx1, heq⟩
    rw [m2] at hx1
    rw [l2] at heq
    omega
  · refine (hu 2 8 ?_).trans rfl
    rintro ⟨_, y, x, hy0, hy1, hx0, hx1, heq⟩
    rw [m2] at hx1
    rw [l2] at heq
    have hy2 : y < 2 := by simpa using hy1
    omega

/-! ## C9: failure of the initialisation -/

/-- C9: the code departs from the claim when the first step, the allocation of the output
context, fails: with a non-empty file name and the mutex initialised, if
`avformat_alloc_output_context2` leaves `data->output` null, `ffmpeg_data_init` jumps to
`fail:` and `ffmpeg_data_free` evaluates `data->output->oformat->flags`, a dereference of
the null context, so `ffmpeg_data_init` does not return false and neither does
`ffmpeg_output_start`. For the later failing steps (encoder lookup, stream creation, codec
open, file open, header write) the claim holds whenever `ffmpeg_data_init` returns false:
the pipeline data is all-zero, no trailer was written and the output context was freed
once. -/
theorem ffmpeg_data_init_alloc_failure (data : ffmpeg_data) (name : String) (env : init_env)
    (h_name : name.isEmpty = false) (h_mutex : env.mutex_init_ret = 0) :
    (env.alloc_output = none →
      ffmpeg_data_free { ffmpeg_data.zero with filename_test := some name }
        = Except.error fault.null_deref ∧
      ffmpeg_data_init data (some name) env = Except.error fault.null_deref ∧
      ∀ (output : ffmpeg_output) (host : host_env), host.video = true → host.audio = true →
        host.filename = some name → host.init = env →
        ffmpeg_output_start output host = Except.error fault.null_deref) ∧
    (env.alloc_output.isSome = true →
      ∀ (d : ffmpeg_data) (c : List call),
        ffmpeg_data_init data (some name) env = Except.ok (false, d, c) →
        d = ffmpeg_data.zero ∧ d.initialized = false ∧ c.count call.av_write_trailer = 0 ∧
        c.count call.avformat_free_context = 1) := by
  constructor
  · intro h_alloc
    have hinit : ∀ d0 : ffmpeg_data,
        ffmpeg_data_init d0 (some name) env = Except.error fault.null_deref :=
      fun d0 => ffmpeg_data_init_null_output d0 name env h_name h_mutex h_alloc
    refine ⟨rfl, hinit data, ?_⟩
    intro output host hv ha hf he
    unfold ffmpeg_output_start
    simp only [hv, ha, hf, h_name, he, hinit output.ff_data, Bool.true_eq_false, or_self,
      if_false, Bool.false_eq_true]
  · intro h_alloc d c h
    obtain ⟨fmt, hfmt⟩ := Option.isSome_iff_exists.mp h_alloc
    obtain ⟨hfalse, _⟩ := ffmpeg_data_init_result data name env fmt h_name h_mutex hfmt _ h
    obtain ⟨z, t, f⟩ := hfalse rfl
    have z' : d = ffmpeg_data.zero := z
    refine ⟨z', ?_, t, f⟩
    rw [z']
    rfl

/-- Witness for C9: the format of `out.xyz` cannot be guessed, the allocation yields no
context, and `ffmpeg_data_init` ends in the null dereference; with the file open failing
instead, `ffmpeg_data_init` returns false. -/
theorem ffmpeg_data_init_alloc_failure_witness :
    (("out.xyz" : String).isEmpty = false ∧ sample_env.mutex_init_ret = 0) ∧
    ffmpeg_data_init ffmpeg_data.zero (some "out.xyz") { sample_env with alloc_output := none }
      = Except.error fault.null_deref ∧
    Except.map Prod.fst
      (ffmpeg_data_init ffmpeg_data.zero (some "out.xyz") { sample_env with avio_open_ret := -1 })
      = Except.ok false :=
  ⟨⟨by decide, rfl⟩,
    ((ffmpeg_data_init_alloc_failure ffmpeg_data.zero "out.xyz"
      { sample_env with alloc_output := none } (by decide) rfl).1 rfl).2.1,
    rfl⟩

/-! ## C10: stopping twice -/

/-- C10: `ffmpeg_output_stop` applied to an inactive pipeline returns it unchanged with an
empty trace (no disconnect, no trailer write, no release). For every pipeline state, if
`ffmpeg_output_stop` returns, a second `ffmpeg_output_stop` right after it returns the
same state with an empty trace, so two stops leave the same state and the same calls as
one: the trailer written once if the pipeline was active and initialised, the output
context freed once and both sinks disconnected once if it was active, none of these
otherwise; and after the stop `ffmpeg_output_active` returns false.
`ffmpeg_output_stop` returns whenever the output context of an active pipeline is
present, which is the case in every state reached by a successful `ffmpeg_output_start`
followed by deliveries: the start leaves the pipeline active and initialised with the
context present, and deliveries change neither. -/
theorem ffmpeg_output_stop_idempotent (output : ffmpeg_output) :
    (output.active = false → ffmpeg_output_stop output = Except.ok (output, [])) ∧
    ((output.active = true → output.ff_data.output.isSome = true) →
      ∃ r, ffmpeg_output_stop output = Except.ok r) ∧
    (∀ (o1 : ffmpeg_output) (c1 : List call), ffmpeg_output_stop output = Except.ok (o1, c1) →
      ffmpeg_output_stop o1 = Except.ok (o1, []) ∧
      ffmpeg_output_active o1 = false ∧
      (output.active = true → o1.ff_data = ffmpeg_data.zero) ∧
      c1.count call.av_write_trailer
        = (if output.active = true ∧ output.ff_data.initialized = true then 1 else 0) ∧
      c1.count call.avformat_free_context = (if output.active = true then 1 else 0) ∧
      c1.count call.video_output_disconnect = (if output.active = true then 1 else 0) ∧
      c1.count call.audio_output_disconnect = (if output.active = true then 1 else 0)) ∧
    (∀ (o0 : ffmpeg_output) (host : host_env) (o : ffmpeg_output) (c : List call),
      ffmpeg_output_start o0 host = Except.ok (true, o, c) →
      o.active = true ∧ o.ff_data.output.isSome = true ∧ o.ff_data.initialized = true) ∧
    (∀ (d : ffmpeg_data) (evs : List delivery) (r : ffmpeg_data × List call),
      run d evs = Except.ok r →
      r.1.output = d.output ∧ r.1.initialized = d.initialized) := by
  refine ⟨?_, ?_, ?_, fun o0 host o c h => ffmpeg_output_start_active o0 host o c h,
    fun d evs r h => run_context evs d r h⟩
  · intro ha
    unfold ffmpeg_output_stop
    rw [ha]
    rfl
  · intro hsome
    by_cases ha : output.active = true
    · obtain ⟨r, hr⟩ := ffmpeg_data_free_defined output.ff_data (hsome ha)
      refine ⟨({ active := false, ff_data := r.1 },
        [call.video_output_disconnect, call.audio_output_disconnect] ++ r.2), ?_⟩
      simp only [ffmpeg_output_stop, ha, if_true, hr]
    · exact ⟨(output, []), by simp only [ffmpeg_output_stop, ha, if_false, Bool.false_eq_true]⟩
  · intro o1 c1 h
    by_cases ha : output.active = true
    · simp only [ffmpeg_output_stop, ha, if_true] at h
      split at h
      · simp at h
      rename_i d c hfree
      have h' := Except.ok.inj h
      have e1 := (Prod.mk.inj h').1
      have e2 := (Prod.mk.inj h').2
      subst e1 e2
      obtain ⟨f1, f2, f3, f4, f5, _⟩ := ffmpeg_data_free_trace output.ff_data _ hfree
      have f1' : d = ffmpeg_data.zero := f1
      have f2' : List.count call.av_write_trailer c
          = (if output.ff_data.initialized = true then 1 else 0) := f2
      have f3' : List.count call.avformat_free_context c = 1 := f3
      have f4' : List.count call.video_output_disconnect c = 0 := f4
      have f5' : List.count call.audio_output_disconnect c = 0 := f5
      refine ⟨rfl, rfl, fun _ => f1', ?_, ?_, ?_, ?_⟩
      · simp [List.count_cons, f2', ha]
      · simp [List.count_cons, f3', ha]
      · simp [List.count_cons, f4', ha]
      · simp [List.count_cons, f5', ha]
    · simp only [ffmpeg_output_stop, ha, if_false, Bool.false_eq_true] at h
      have h' := Except.ok.inj h
      have e1 := (Prod.mk.inj h').1
      have e2 := (Prod.mk.inj h').2
      subst e1 e2
      refine ⟨?_, ?_, fun hc => absurd hc ha, by simp [ha], by simp [ha], by simp [ha],
        by simp [ha]⟩
      · simp only [ffmpeg_output_stop, ha, if_false, Bool.false_eq_true]
      · simpa [ffmpeg_output_active] using ha

/-- Witness for C10: a pipeline started on `out.mp4` is stopped twice; the first stop
writes the trailer once and frees the output context once, the second does nothing. -/
theorem ffmpeg_output_stop_idempotent_witness :
    Except.map Prod.fst (ffmpeg_output_start ffmpeg_output_create sample_host) = Except.ok true ∧
    sample_started.active = true ∧ sample_started.ff_data.initialized = true ∧
    ∃ (o1 : ffmpeg_output) (c1 : List call),
      ffmpeg_output_stop sample_started = Except.ok (o1, c1) ∧
      ffmpeg_output_stop o1 = Except.ok (o1, []) ∧
      ffmpeg_output_active o1 = false ∧
      c1.count call.av_write_trailer = 1 ∧ c1.count call.avformat_free_context = 1 := by
  refine ⟨rfl, rfl, rfl, _, _, rfl, ?_⟩
  have h := (ffmpeg_output_stop_idempotent sample_started).2.2.1 _ _ rfl
  exact ⟨h.1, h.2.1, by decide, by decide⟩

/-! ## C11: the drain loop encodes every whole frame -/

/-- C11: for every delivery whose block is admitted by `prepare_audio` as `inp` (the block
itself when its timestamp is not before `start_timestamp`, the trimmed block otherwise),
with `frame_size_bytes > 0` (equal to `frame_size * audio_size` when that product does
not wrap), `S` bytes buffered in every active plane before the call and
`n = inp.frames * audio_size` bytes pushed per plane, `receive_audio` returns: its drain
loop terminates after exactly `(S + n) / frame_size_bytes` runs of `encode_audio`; the
`j`-th run is handed, for each active plane, the bytes `j * frame_size_bytes` up to
`(j + 1) * frame_size_bytes` of the old buffer contents followed by the pushed bytes
(FIFO order); and every active plane is left holding the bytes after those frames,
`(S + n) % frame_size_bytes` of them, fewer than one encoder frame, while the other
buffers are untouched. The audio stream and the audio frame are present, at least one
plane is active, the pushed byte count fits `size_t` and the sample counter has room
for the frames encoded. -/
theorem receive_audio_drains_whole_frames (data : ffmpeg_data) (frame inp : audio_data)
    (ext : Nat → audio_ext) (S : Nat)
    (h_audio : data.audio.isSome = true) (h_aframe : data.aframe = true)
    (h_started : data.start_timestamp ≠ 0)
    (h_prep : prepare_audio data frame = Except.ok (true, inp))
    (h_planes : 0 < data.audio_planes)
    (h_fsb : 0 < frame_size_bytes data)
    (h_S : ∀ i, i < data.audio_planes → (data.excess_frames i).size = S)
    (h_bytes : inp.frames * data.audio_size < u64)
    (h_int : in_int data.total_samples ∧
      in_int (data.total_samples
        + (((S + inp.frames * data.audio_size) / frame_size_bytes data : Nat) : Int)
          * data.frame_size)) :
    ∃ r, receive_audio data frame ext = Except.ok r ∧
      (fill_planes r.2).length = (S + inp.frames * data.audio_size) / frame_size_bytes data ∧
      (fill_planes r.2).map (fun ps => ps.map (List.take (frame_size_bytes data)))
        = (List.range ((S + inp.frames * data.audio_size) / frame_size_bytes data)).map
            (frame_chunk (frame_size_bytes data) data.audio_planes
              (fun i => (data.excess_frames i).bytes
                ++ (inp.data i).read (inp.frames * data.audio_size))) ∧
      (∀ j, j < (S + inp.frames * data.audio_size) / frame_size_bytes data →
        ∀ ps, ps ∈ frame_chunk (frame_size_bytes data) data.audio_planes
            (fun i => (data.excess_frames i).bytes
              ++ (inp.data i).read (inp.frames * data.audio_size)) j →
          ps.length = frame_size_bytes data) ∧
      (∀ i, i < data.audio_planes →
        (r.1.excess_frames i).bytes
          = ((data.excess_frames i).bytes
              ++ (inp.data i).read (inp.frames * data.audio_size)).drop
              ((S + inp.frames * data.audio_size) / frame_size_bytes data
                * frame_size_bytes data) ∧
        (r.1.excess_frames i).size
          = (S + inp.frames * data.audio_size) % frame_size_bytes data ∧
        (r.1.excess_frames i).size < frame_size_bytes data) ∧
      (∀ i, data.audio_planes ≤ i → r.1.excess_frames i = data.excess_frames i) ∧
      (data.start_timestamp ≤ frame.timestamp → inp = frame) ∧
      (0 ≤ data.frame_size → data.frame_size.toNat * data.audio_size < u64 →
        frame_size_bytes data = data.frame_size.toNat * data.audio_size) := by
  have hmod : inp.frames * data.audio_size % u64 = inp.frames * data.audio_size :=
    Nat.mod_eq_of_lt h_bytes
  have hS1 : ∀ i, i < (push_planes data inp).audio_planes →
      ((push_planes data inp).excess_frames i).size = S + inp.frames * data.audio_size := by
    intro i hi
    have hi' : i < data.audio_planes := hi
    rw [push_planes_size, if_pos hi', h_S i hi', hmod]
  have hints : ∀ j : Nat,
      j ≤ (S + inp.frames * data.audio_size) / frame_size_bytes (push_planes data inp) →
      in_int ((push_planes data inp).total_samples
        + (j : Int) * (push_planes data inp).frame_size) := by
    intro j hj
    exact in_int_between data.total_samples data.frame_size _ j h_int.1 h_int.2 hj
  obtain ⟨r, hr, hmap, hbytes, hother⟩ :=
    drain_loop_spec ext (S + inp.frames * data.audio_size + 1) (push_planes data inp) 0
      (S + inp.frames * data.audio_size) h_fsb h_planes h_aframe h_audio hS1
      (Nat.lt_succ_self _) hints
  have hfuel : ((push_planes data inp).excess_frames 0).size + 1
      = S + inp.frames * data.audio_size + 1 := by
    rw [hS1 0 h_planes]
  have hstream : ∀ i, i < data.audio_planes →
      ((push_planes data inp).excess_frames i).bytes
        = (data.excess_frames i).bytes
          ++ (inp.data i).read (inp.frames * data.audio_size) := by
    intro i hi
    simp only [push_planes, hi, if_true, circlebuf_push_back, hmod]
  have hmap1 : (fill_planes r.2).map (fun ps => ps.map (List.take (frame_size_bytes data)))
      = (List.range ((S + inp.frames * data.audio_size) / frame_size_bytes data)).map
          (frame_chunk (frame_size_bytes data) data.audio_planes
            (fun i => (data.excess_frames i).bytes
              ++ (inp.data i).read (inp.frames * data.audio_size))) := by
    refine hmap.trans (List.map_congr_left ?_)
    intro j _
    unfold frame_chunk
    apply List.map_congr_left
    intro i hi
    simp only
    rw [hstream i (List.mem_range.mp hi)]
    rfl
  obtain ⟨a, ha⟩ := Option.isSome_iff_exists.mp h_audio
  have hlen : ∀ i, i < data.audio_planes →
      ((data.excess_frames i).bytes
        ++ (inp.data i).read (inp.frames * data.audio_size)).length
      = S + inp.frames * data.audio_size := by
    intro i hi
    have hs : (data.excess_frames i).bytes.length = S := h_S i hi
    simp only [List.length_append, hs, pointer.read, List.length_map, List.length_range]
  refine ⟨r, ?_, ?_, hmap1,
    fun j hj => frame_chunk_length _ _ _ _ j hlen hj, ?_, ?_, ?_, ?_⟩
  · unfold receive_audio
    simp only [ha, h_started, if_false, h_prep]
    unfold drain
    rw [hfuel]
    exact hr
  · have hl := congrArg List.length hmap1
    simpa using hl
  · intro i hi
    have hb := hbytes i hi
    rw [hstream i hi] at hb
    have hb' : (r.1.excess_frames i).bytes
        = ((data.excess_frames i).bytes
            ++ (inp.data i).read (inp.frames * data.audio_size)).drop
            ((S + inp.frames * data.audio_size) / frame_size_bytes data
              * frame_size_bytes data) := hb
    have hsz : (r.1.excess_frames i).size
        = (S + inp.frames * data.audio_size) % frame_size_bytes data := by
      unfold circlebuf.size
      rw [hb', List.length_drop, hlen i hi]
      have hdm := Nat.div_add_mod (S + inp.frames * data.audio_size) (frame_size_bytes data)
      rw [Nat.mul_comm] at hdm
      omega
    refine ⟨hb', hsz, ?_⟩
    rw [hsz]
    exact Nat.mod_lt _ h_fsb
  · intro i hi
    have ho := hother i hi
    have hni : ¬ i < data.audio_planes := by omega
    rw [ho]
    simp only [push_planes, hni, if_false]
  · intro hts
    have hnot : ¬ frame.timestamp < data.start_timestamp := by omega
    simp only [prepare_audio, hnot, if_false] at h_prep
    have h1 := Except.ok.inj h_prep
    exact ((Prod.mk.inj h1).2).symm
  · intro h0 hlt
    exact frame_size_bytes_exact data h0 hlt

/-- Witness for C11: frames of 2 samples (8 bytes per plane), 4 bytes buffered in each of
the two planes, a block of 6 frames (24 bytes per plane) stamped at `start_timestamp`:
`encode_audio` runs 3 times and 4 bytes stay in each plane. -/
theorem receive_audio_drains_whole_frames_witness :
    prepare_audio sample_buffered (sample_block 1000000000 6)
      = Except.ok (true, sample_block 1000000000 6) ∧
    frame_size_bytes sample_buffered = 8 ∧
    ∃ r, receive_audio sample_buffered (sample_block 1000000000 6) sample_audio_ext
        = Except.ok r ∧
      (fill_planes r.2).length = 3 ∧
      (fill_planes r.2).map (fun ps => ps.map (List.take 8))
        = [[[100, 101, 102, 103, 0, 1, 2, 3], [100, 101, 102, 103, 0, 1, 2, 3]],
           [[4, 5, 6, 7, 8, 9, 10, 11], [4, 5, 6, 7, 8, 9, 10, 11]],
           [[12, 13, 14, 15, 16, 17, 18, 19], [12, 13, 14, 15, 16, 17, 18, 19]]] ∧
      (r.1.excess_frames 0).bytes = [20, 21, 22, 23] ∧
      (r.1.excess_frames 1).bytes = [20, 21, 22, 23] := by
  refine ⟨rfl, rfl, ?_⟩
  obtain ⟨r, h1, h2, h3, _, h4, _⟩ :=
    receive_audio_drains_whole_frames sample_buffered (sample_block 1000000000 6)
      (sample_block 1000000000 6) sample_audio_ext 4 rfl rfl (by decide) rfl (by decide)
      (by decide) (by intro i hi; simp only [sample_buffered, sample_data] at hi ⊢; simp [hi, circlebuf.size])
      (by decide) (by decide)
  refine ⟨r, h1, h2, ?_, ?_, ?_⟩
  · exact h3.trans rfl
  · exact (h4 0 (by decide)).1.trans rfl
  · exact (h4 1 (by decide)).1.trans rfl

end ObsFfmpeg
